import Mathlib

/-!
Verification of the flip7 round engine.

This file gives a shallow embedding, in Lean 4, of the card model, the
scoring function and the `Game` state machine of the flip7 repository
(package `@flip7/shared`, `packages/shared/src/types/game.ts`, and the
server engine `packages/server/src/game/Game.ts` together with
`packages/server/src/game/Deck.ts`).  The repository contains several
revisions of `Game.ts`; the embedding follows the current revision —
the one that defines `pendingFlipThreeTarget`, `selectFlipThreeTarget`
and the phase `AWAITING_FLIP_THREE_TARGET`, which is the only revision
consistent with the socket handlers (`gameHandlers.ts` calls
`game.selectFlipThreeTarget`) and with the client components.

Conventions of the embedding:
* TypeScript string ids stay `String`; numeric fields become `Nat`
  (all arithmetic in the engine is non-negative addition and doubling,
  so no overflow or sign issues arise).
* The deck array with `pop`-from-the-end draws is represented as a
  `List Card` whose head is the next card to be drawn (the top of the
  deck); `Deck.addCards`, which appends to the array, therefore
  prepends the reversed list in this representation.
* `Math.random`-driven shuffles are modelled by passing the shuffle as
  an explicit function argument where a code path needs it; theorems
  quantify over it.
* In-place mutation of a player object found by id becomes an update
  of the first list entry with that id, matching the semantics of
  `Array.prototype.find` followed by mutation.
* `while` loops are translated to fuel-indexed recursive functions;
  the wrapper supplies fuel that dominates the loop variant visible in
  the source (each iteration either consumes a deck card or strictly
  decreases the remaining-draws counter).
-/

namespace Flip7

/-- The three action kinds of `ActionCard['action']`:
`'freeze' | 'flip_three' | 'second_chance'`. -/
inductive ActionKind where
  | freeze
  | flip_three
  | second_chance
deriving DecidableEq, Repr

/-- The modifier payload of `ModifierCard['modifier']`: a flat bonus
number or the literal `'x2'`. -/
inductive ModifierValue where
  | plus (amount : Nat)
  | x2
deriving DecidableEq, Repr

/-- The tagged union `Card = NumberCard | ActionCard | ModifierCard`
from `packages/shared/src/types/card.ts`; every variant carries the
unique `id` assigned at deck build time. -/
inductive Card where
  | number (value : Nat) (id : String)
  | action (action : ActionKind) (id : String)
  | modifier (modifier : ModifierValue) (id : String)
deriving DecidableEq, Repr

/-- `isNumberCard` type guard. -/
def isNumberCard : Card → Bool
  | .number _ _ => true
  | _ => false

/-- `isActionCard` type guard. -/
def isActionCard : Card → Bool
  | .action _ _ => true
  | _ => false

/-- `isModifierCard` type guard. -/
def isModifierCard : Card → Bool
  | .modifier _ _ => true
  | _ => false

/-- The `PlayedCard` wrapper `{ card, attachedModifiers }`.  The engine
always constructs it with `attachedModifiers: []`, but the field is
kept to stay faithful to the data model. -/
structure PlayedCard where
  card : Card
  attachedModifiers : List Card
deriving DecidableEq, Repr

/-- The value of a played number card, if the card is a number card. -/
def numberValue? (pc : PlayedCard) : Option Nat :=
  match pc.card with
  | .number v _ => some v
  | _ => none

/-- The amount of a played flat-bonus modifier, if it is one. -/
def flatBonus? (pc : PlayedCard) : Option Nat :=
  match pc.card with
  | .modifier (.plus n) _ => some n
  | _ => none

/-- Whether a played card is the Doubler (`x2`) modifier. -/
def isX2 (pc : PlayedCard) : Bool :=
  match pc.card with
  | .modifier .x2 _ => true
  | _ => false

/-- `calculateRoundScore` from `packages/shared/src/types/game.ts`.
The imperative loop accumulates four quantities over the hand — the
sum of number values, the set of distinct number values, whether an
`x2` modifier occurred, and the sum of flat modifier bonuses — and
then combines them: double the number total if `x2` is present, add
the flat bonuses, and add 15 when at least 7 distinct number values
were collected. -/
def calculateRoundScore (cards : List PlayedCard) : Nat :=
  let numberTotal := (cards.filterMap numberValue?).sum
  let distinctCount := (cards.filterMap numberValue?).toFinset.card
  let hasX2 := cards.any isX2
  let modifierBonus := (cards.filterMap flatBonus?).sum
  let total := if hasX2 then numberTotal * 2 else numberTotal
  let total := total + modifierBonus
  if 7 ≤ distinctCount then total + 15 else total

/-- `PlayerStatus` from `packages/shared/src/types/game.ts`. -/
inductive PlayerStatus where
  | active
  | passed
  | busted
  | frozen
  | disconnected
deriving DecidableEq, Repr

/-- The `Player` record.  The `reconnectToken` field is transport
metadata never read by the engine and is omitted. -/
structure Player where
  id : String
  name : String
  score : Nat
  roundScore : Nat
  cards : List PlayedCard
  status : PlayerStatus
  isHost : Bool
  isConnected : Bool
deriving DecidableEq, Repr

/-- `GameSettings`. -/
structure GameSettings where
  targetScore : Nat
  maxPlayers : Nat
  turnTimeoutSeconds : Nat
deriving DecidableEq, Repr

/-- `DEFAULT_GAME_SETTINGS`. -/
def DEFAULT_GAME_SETTINGS : GameSettings :=
  { targetScore := 200, maxPlayers := 6, turnTimeoutSeconds := 30 }

/-- `GamePhase`, including `AWAITING_FLIP_THREE_TARGET` used by the
current `Game.ts` revision and by `gameHandlers.ts`. -/
inductive GamePhase where
  | LOBBY
  | DEALING
  | PLAYER_TURN
  | AWAITING_SECOND_CHANCE
  | AWAITING_FREEZE_TARGET
  | AWAITING_FLIP_THREE_TARGET
  | ROUND_END
  | GAME_END
deriving DecidableEq, Repr

/-- The `pendingSecondChance` record of `Game`. -/
structure PendingSecondChance where
  playerId : String
  duplicateCard : Card
deriving DecidableEq, Repr

/-- The shape shared by `pendingFreezeTarget` and
`pendingFlipThreeTarget`. -/
structure PendingTarget where
  playerId : String
  eligibleTargets : List String
deriving DecidableEq, Repr

/-- The private state of the `Game` class (the deck is inlined as the
list of undrawn cards, head = next card to be drawn).  The round-start
timer and callback are transport concerns and are not part of the
state. -/
structure GameState where
  deck : List Card
  discardPile : List Card
  players : List Player
  phase : GamePhase
  currentPlayerIndex : Nat
  dealerIndex : Nat
  round : Nat
  settings : GameSettings
  pendingSecondChance : Option PendingSecondChance
  pendingFreezeTarget : Option PendingTarget
  pendingFlipThreeTarget : Option PendingTarget
  pendingFlipThreeFreeze : Option String
  pendingDealIndex : Option Nat
  flipThreeRemaining : Nat
  winnerId : Option String
deriving DecidableEq, Repr

/-- The `DrawResult` interface of `Game.ts`. -/
structure DrawResult where
  card : Card
  playedCard : PlayedCard
  isBust : Bool
  duplicateCard : Option Card
  triggersFlipThree : Bool
  triggersFreeze : Bool
  hasSecondChance : Bool
  extraSecondChance : Option Card
deriving DecidableEq, Repr

/-- The fresh `DrawResult` built at the top of `processDrawnCard`. -/
def DrawResult.init (card : Card) : DrawResult :=
  { card := card
    playedCard := { card := card, attachedModifiers := [] }
    isBust := false
    duplicateCard := none
    triggersFlipThree := false
    triggersFreeze := false
    hasSecondChance := false
    extraSecondChance := none }

/-- `Deck.draw`: `this.cards.pop() || null`.  In the head-is-top list
representation this takes the head. -/
def Deck.draw : List Card → Option Card × List Card
  | [] => (none, [])
  | c :: rest => (some c, rest)

/-- `Deck.addCards`: `this.cards.push(...cards)` appends to the array,
so in the head-is-top representation the pushed cards sit above the
old ones in reverse push order. -/
def Deck.addCards (deck cards : List Card) : List Card :=
  cards.reverse ++ deck

/-- Boolean test `p.status === s`. -/
def statusIs (s : PlayerStatus) (p : Player) : Bool :=
  decide (p.status = s)

/-- The predicate `isActionCard(pc.card) && pc.card.action === 'second_chance'`. -/
def isSecondChancePlayed (pc : PlayedCard) : Bool :=
  match pc.card with
  | .action .second_chance _ => true
  | _ => false

/-- Whether a raw card is the Second Chance action card. -/
def isSecondChanceCard (c : Card) : Bool :=
  match c with
  | .action .second_chance _ => true
  | _ => false

/-- `Game.hasSecondChanceCard`. -/
def hasSecondChanceCard (player : Player) : Bool :=
  player.cards.any isSecondChancePlayed

/-- `Game.getSecondChanceIndex`; `none` models the `-1` result. -/
def getSecondChanceIndex (player : Player) : Option Nat :=
  player.cards.findIdx? isSecondChancePlayed

/-- `Game.getEligibleFreezeTargets`: ids of all active, connected
players. -/
def getEligibleFreezeTargets (g : GameState) : List String :=
  (g.players.filter fun p => statusIs .active p && p.isConnected).map (·.id)

/-- `Game.getPlayer` resolved to the index of the first player with
the given id (`Array.prototype.find` returns the first match). -/
def getPlayerIdx? (g : GameState) (playerId : String) : Option Nat :=
  g.players.findIdx? fun p => decide (p.id = playerId)

/-- `Game.getPlayer`. -/
def getPlayer? (g : GameState) (playerId : String) : Option Player :=
  g.players.find? fun p => decide (p.id = playerId)

/-- `Game.getCurrentPlayer`: `this.players[this.currentPlayerIndex]`,
`undefined` when out of range. -/
def getCurrentPlayer? (g : GameState) : Option Player :=
  g.players[g.currentPlayerIndex]?

/-- Write back a mutated player object at its index. -/
def setPlayer (g : GameState) (i : Nat) (p : Player) : GameState :=
  { g with players := g.players.set i p }

/-- `Game.processDrawnCard`.  It reads and mutates only the given
player (hand pushes and the 7-unique auto-pass) and reports everything
else through the `DrawResult`. -/
def processDrawnCard (player : Player) (card : Card) : DrawResult × Player :=
  let result := DrawResult.init card
  match card with
  | .number v _ =>
    let hasDuplicate := player.cards.any fun pc =>
      match pc.card with
      | .number w _ => decide (w = v)
      | _ => false
    if hasDuplicate then
      ({ result with
          isBust := true
          duplicateCard := some card
          hasSecondChance := hasSecondChanceCard player }, player)
    else
      let player := { player with cards := player.cards ++ [result.playedCard] }
      let uniqueNumbers := (player.cards.filterMap numberValue?).toFinset
      if 7 ≤ uniqueNumbers.card then
        (result, { player with status := .passed })
      else
        (result, player)
  | .action a _ =>
    match a with
    | .freeze =>
      ({ result with triggersFreeze := true },
       { player with cards := player.cards ++ [result.playedCard] })
    | .flip_three =>
      ({ result with triggersFlipThree := true },
       { player with cards := player.cards ++ [result.playedCard] })
    | .second_chance =>
      if hasSecondChanceCard player then
        ({ result with extraSecondChance := some card }, player)
      else
        (result, { player with cards := player.cards ++ [result.playedCard] })
  | .modifier _ _ =>
    (result, { player with cards := player.cards ++ [result.playedCard] })

/-- `Game.giveSecondChanceToOtherPlayer`: hand the extra insurance
card to the first active player without one, else discard it. -/
def giveSecondChanceToOtherPlayer (card : Card) (g : GameState) : GameState :=
  match g.players.findIdx? (fun p => statusIs .active p && !hasSecondChanceCard p) with
  | some i =>
    match g.players[i]? with
    | some p => setPlayer g i { p with cards := p.cards ++ [⟨card, []⟩] }
    | none => g
  | none => { g with discardPile := g.discardPile ++ [card] }

/-- The three-valued result of `tryResolveFreeze` /
`tryResolveFlipThree` (`'resolved' | 'pending' | 'none'`). -/
inductive ResolveOutcome where
  | resolved
  | pending
  | noTargets
deriving DecidableEq, Repr

/-- `Game.tryResolveFreeze`. -/
def tryResolveFreeze (playerId : String) (g : GameState) : ResolveOutcome × GameState :=
  let eligibleTargets := getEligibleFreezeTargets g
  match eligibleTargets with
  | [] => (.noTargets, g)
  | [t] =>
    match getPlayerIdx? g t with
    | some i =>
      match g.players[i]? with
      | some p =>
        (.resolved, setPlayer g i
          { p with status := .frozen, roundScore := calculateRoundScore p.cards })
      | none => (.resolved, g)
    | none => (.resolved, g)
  | _ =>
    (.pending, { g with
      pendingFreezeTarget := some { playerId := playerId, eligibleTargets := eligibleTargets }
      phase := .AWAITING_FREEZE_TARGET })

/-- `overTarget.sort((a, b) => b.score - a.score)[0]`: the first
player with the maximal score (JS sort is stable, so ties keep their
original order). -/
def maxScoreFirst : List Player → Option Player
  | [] => none
  | p :: rest =>
    match maxScoreFirst rest with
    | none => some p
    | some q => if p.score < q.score then some q else some p

/-- `Game.endRound`: bank round scores of passed and frozen players,
detect a winner (highest total among those at or past the target), or
rotate the dealer for the next round (the actual next-round start is
driven by the external timer). -/
def endRound (g : GameState) : GameState :=
  let g := { g with phase := .ROUND_END }
  let g := { g with players := g.players.map (fun (p : Player) =>
    if p.status = PlayerStatus.passed ∨ p.status = PlayerStatus.frozen then
      { p with score := p.score + p.roundScore }
    else p) }
  let overTarget := g.players.filter fun (p : Player) => decide (g.settings.targetScore ≤ p.score)
  match g.players.find? (fun (p : Player) => decide (g.settings.targetScore ≤ p.score)) with
  | some winner =>
    let g := { g with phase := .GAME_END, winnerId := some winner.id }
    if 1 < overTarget.length then
      { g with winnerId := (maxScoreFirst overTarget).map (fun (p : Player) => p.id) }
    else g
  | none =>
    { g with dealerIndex := (g.dealerIndex + 1) % g.players.length }

/-- The scan loop of `advanceToNextPlayer`, searching cyclically for
the next active connected player with at most `players.length`
attempts; returns the found index. -/
def advanceLoop (players : List Player) (nextIndex : Nat) : Nat → Option Nat
  | 0 => none
  | attempts + 1 =>
    match players[nextIndex]? with
    | some p =>
      if statusIs .active p && p.isConnected then some nextIndex
      else advanceLoop players ((nextIndex + 1) % players.length) attempts
    | none => advanceLoop players ((nextIndex + 1) % players.length) attempts

/-- `Game.advanceToNextPlayer`. -/
def advanceToNextPlayer (g : GameState) : GameState :=
  let activePlayers := g.players.filter fun p => statusIs .active p && p.isConnected
  if activePlayers.length = 0 then endRound g
  else
    match advanceLoop g.players ((g.currentPlayerIndex + 1) % g.players.length) g.players.length with
    | some i => { g with currentPlayerIndex := i }
    | none => endRound g

/-- The scan loop of `skipInactivePlayers`. -/
def skipLoop (players : List Player) (idx : Nat) : Nat → Nat
  | 0 => idx
  | attempts + 1 =>
    match players[idx]? with
    | some p =>
      if statusIs .active p && p.isConnected then idx
      else skipLoop players ((idx + 1) % players.length) attempts
    | none => skipLoop players ((idx + 1) % players.length) attempts

/-- `Game.skipInactivePlayers`. -/
def skipInactivePlayers (g : GameState) : GameState :=
  { g with currentPlayerIndex := skipLoop g.players g.currentPlayerIndex g.players.length }

/-- The `while (flipThreeRemaining > 0 && player.status === 'active')`
loop of `Game.executeFlipThree`, fuel-indexed.  The returned flag is
`true` when the loop exited through the `return` inside the
contingent-bust branch (pausing in `AWAITING_SECOND_CHANCE` and
skipping all post-loop processing). -/
def executeFlipThreeLoop (fuel : Nat) (i : Nat) (g : GameState) : GameState × Bool :=
  match fuel with
  | 0 => (g, false)
  | fuel + 1 =>
    match g.players[i]? with
    | none => (g, false)
    | some p =>
      if 0 < g.flipThreeRemaining && statusIs .active p then
        let g := { g with flipThreeRemaining := g.flipThreeRemaining - 1 }
        match g.deck with
        | [] => executeFlipThreeLoop fuel i g
        | card :: deckRest =>
          let g := { g with deck := deckRest }
          let (result, p) := processDrawnCard p card
          let g := setPlayer g i p
          let g :=
            match result.extraSecondChance with
            | some c => giveSecondChanceToOtherPlayer c g
            | none => g
          if result.isBust && !result.hasSecondChance then
            (setPlayer g i { p with status := .busted, roundScore := 0 }, false)
          else if result.isBust && result.hasSecondChance then
            ({ g with
                pendingSecondChance := some { playerId := p.id, duplicateCard := card }
                phase := .AWAITING_SECOND_CHANCE }, true)
          else
            let g :=
              if result.triggersFlipThree then
                { g with flipThreeRemaining := g.flipThreeRemaining + 3 }
              else if result.triggersFreeze then
                { g with pendingFlipThreeFreeze := some p.id }
              else g
            if statusIs .passed p then
              (setPlayer g i { p with roundScore := calculateRoundScore p.cards }, false)
            else
              executeFlipThreeLoop fuel i g
      else (g, false)

/-- Fuel dominating the loop variant of `executeFlipThree`: each
iteration either consumes a deck card (and adds at most 3 to the
remaining-draw counter) or, with an empty deck, strictly decreases the
counter. -/
def flipThreeFuel (g : GameState) : Nat :=
  g.flipThreeRemaining + 4 * g.deck.length + 1

/-- `Game.executeFlipThree`: run the draw loop, then clear the
counter, resolve a set-aside Freeze, and advance the turn when the
target ended busted, frozen or passed. -/
def executeFlipThree (i : Nat) (g : GameState) : GameState :=
  let (g, earlyReturn) := executeFlipThreeLoop (flipThreeFuel g) i g
  if earlyReturn then g
  else
    let g := { g with flipThreeRemaining := 0 }
    let (g, pendingReturn) :=
      match g.players[i]? with
      | none => (g, false)
      | some p =>
        match g.pendingFlipThreeFreeze with
        | some pid =>
          if pid = p.id then
            if statusIs .busted p || statusIs .passed p then
              ({ g with pendingFlipThreeFreeze := none }, false)
            else if statusIs .active p then
              let g := { g with pendingFlipThreeFreeze := none }
              let (outcome, g) := tryResolveFreeze p.id g
              (g, decide (outcome = ResolveOutcome.pending))
            else (g, false)
          else (g, false)
        | none => (g, false)
    if pendingReturn then g
    else
      match g.players[i]? with
      | some p =>
        if statusIs .busted p || statusIs .frozen p || statusIs .passed p then
          advanceToNextPlayer g
        else g
      | none => g

/-- `Game.tryResolveFlipThree`: same eligibility as Freeze; a single
eligible target is made to draw immediately, several eligible targets
pause in `AWAITING_FLIP_THREE_TARGET`. -/
def tryResolveFlipThree (playerId : String) (g : GameState) : ResolveOutcome × GameState :=
  let eligibleTargets := getEligibleFreezeTargets g
  match eligibleTargets with
  | [] => (.noTargets, g)
  | [t] =>
    match getPlayerIdx? g t with
    | some i => (.resolved, executeFlipThree i { g with flipThreeRemaining := 3 })
    | none => (.resolved, g)
  | _ =>
    (.pending, { g with
      pendingFlipThreeTarget := some { playerId := playerId, eligibleTargets := eligibleTargets }
      phase := .AWAITING_FLIP_THREE_TARGET })

/-- `Game.handleDrawnCard` (the drawing player is given by index). -/
def handleDrawnCard (i : Nat) (card : Card) (g : GameState) : DrawResult × GameState :=
  match g.players[i]? with
  | none => (DrawResult.init card, g)
  | some p =>
    let (result, p) := processDrawnCard p card
    let g := setPlayer g i p
    let g :=
      match result.extraSecondChance with
      | some c => giveSecondChanceToOtherPlayer c g
      | none => g
    if result.isBust then
      if result.hasSecondChance then
        (result, { g with
          pendingSecondChance := some { playerId := p.id, duplicateCard := card }
          phase := .AWAITING_SECOND_CHANCE })
      else
        let g := setPlayer g i { p with status := .busted, roundScore := 0 }
        let g := { g with
          discardPile := g.discardPile ++ p.cards.map (fun pc => pc.card) ++ [card] }
        (result, advanceToNextPlayer g)
    else if result.triggersFreeze then
      let (outcome, g) := tryResolveFreeze p.id g
      if outcome = .pending then (result, g) else (result, advanceToNextPlayer g)
    else if result.triggersFlipThree then
      let (outcome, g) := tryResolveFlipThree p.id g
      if outcome = .pending then (result, g) else (result, advanceToNextPlayer g)
    else if statusIs .passed p then
      let g := setPlayer g i { p with roundScore := calculateRoundScore p.cards }
      (result, advanceToNextPlayer g)
    else
      (result, advanceToNextPlayer g)

/-- `Game.hit`.  The shuffle performed when the deck runs dry is an
explicit argument (`Math.random` in the source). -/
def hit (shuffle : List Card → List Card) (playerId : String) (g : GameState) :
    Option DrawResult × GameState :=
  match getPlayerIdx? g playerId with
  | none => (none, g)
  | some i =>
    match g.players[i]? with
    | none => (none, g)
    | some p =>
      if ¬ statusIs .active p then (none, g)
      else if g.phase ≠ .PLAYER_TURN ∨ (getCurrentPlayer? g).map (fun q => q.id) ≠ some playerId then
        (none, g)
      else
        match g.deck with
        | card :: deckRest =>
          let g := { g with deck := deckRest }
          let (result, g) := handleDrawnCard i card g
          (some result, g)
        | [] =>
          let g := { g with deck := shuffle (Deck.addCards [] g.discardPile), discardPile := [] }
          match g.deck with
          | [] => (none, g)
          | card :: deckRest =>
            let g := { g with deck := deckRest }
            let (result, g) := handleDrawnCard i card g
            (some result, g)

/-- `Game.useSecondChance`. -/
def useSecondChance (playerId : String) (use : Bool) (g : GameState) : Bool × GameState :=
  if g.phase ≠ .AWAITING_SECOND_CHANCE then (false, g)
  else
    match g.pendingSecondChance with
    | none => (false, g)
    | some pending =>
      if pending.playerId ≠ playerId then (false, g)
      else
        match getPlayerIdx? g playerId with
        | none => (false, g)
        | some i =>
          match g.players[i]? with
          | none => (false, g)
          | some p =>
            let duplicateCard := pending.duplicateCard
            if use then
              let g :=
                match getSecondChanceIndex p with
                | some k =>
                  match p.cards[k]? with
                  | some scPlayed =>
                    let g := setPlayer g i { p with cards := p.cards.eraseIdx k }
                    { g with discardPile := g.discardPile ++ [scPlayed.card, duplicateCard] }
                  | none => g
                | none => g
              let g := { g with pendingSecondChance := none, phase := .PLAYER_TURN }
              if 0 < g.flipThreeRemaining then (true, executeFlipThree i g)
              else (true, g)
            else
              let g := setPlayer g i { p with status := .busted, roundScore := 0 }
              let g := { g with
                discardPile := g.discardPile ++ p.cards.map (fun pc => pc.card) ++ [duplicateCard]
                pendingSecondChance := none
                flipThreeRemaining := 0
                phase := .PLAYER_TURN }
              (true, advanceToNextPlayer g)

/-- `Game.pass`. -/
def pass (playerId : String) (g : GameState) : Bool × GameState :=
  match getPlayerIdx? g playerId with
  | none => (false, g)
  | some i =>
    match g.players[i]? with
    | none => (false, g)
    | some p =>
      if ¬ statusIs .active p then (false, g)
      else if g.phase ≠ .PLAYER_TURN ∨ (getCurrentPlayer? g).map (fun q => q.id) ≠ some playerId then
        (false, g)
      else
        let g := setPlayer g i
          { p with status := .passed, roundScore := calculateRoundScore p.cards }
        (true, advanceToNextPlayer g)

/-- The `for (let i = 0; i < 3 && player.status === 'active'; i++)`
loop of `Game.executeFlipThreeDuringDeal`; `k` counts the iterations
that remain, and the accumulated `freezeDrawn` flag is returned with
the state. -/
def flipThreeDealLoop (k : Nat) (i : Nat) (freezeDrawn : Bool) (g : GameState) :
    Bool × GameState :=
  match k with
  | 0 => (freezeDrawn, g)
  | k + 1 =>
    match g.players[i]? with
    | none => (freezeDrawn, g)
    | some p =>
      if ¬ statusIs .active p then (freezeDrawn, g)
      else
        match g.deck with
        | [] => (freezeDrawn, g)
        | card :: deckRest =>
          let g := { g with deck := deckRest }
          let (result, p) := processDrawnCard p card
          let g := setPlayer g i p
          if result.isBust && !result.hasSecondChance then
            (freezeDrawn, setPlayer g i { p with status := .busted, roundScore := 0 })
          else if result.isBust && result.hasSecondChance then
            let g :=
              match getSecondChanceIndex p with
              | some idx =>
                match p.cards[idx]? with
                | some scPlayed =>
                  let g := setPlayer g i { p with cards := p.cards.eraseIdx idx }
                  { g with discardPile := g.discardPile ++ [scPlayed.card, card] }
                | none => g
              | none => g
            flipThreeDealLoop k i freezeDrawn g
          else if result.triggersFreeze then
            flipThreeDealLoop k i true g
          else
            let g :=
              match result.extraSecondChance with
              | some c => giveSecondChanceToOtherPlayer c g
              | none => g
            flipThreeDealLoop k i freezeDrawn g

/-- `Game.executeFlipThreeDuringDeal`.  The drawing player is both the
mutated player and the deal cursor (`continueInitialDeal` always calls
it with `playerIndex = i`), so a single index is passed.  Returns
`true` when the deal must pause for a freeze-target choice. -/
def executeFlipThreeDuringDeal (i : Nat) (g : GameState) : GameState × Bool :=
  let (freezeDrawn, g) := flipThreeDealLoop 3 i false g
  if freezeDrawn then
    match g.players[i]? with
    | none => (g, false)
    | some p =>
      if statusIs .busted p then (g, false)
      else if statusIs .active p then
        let (outcome, g) := tryResolveFreeze p.id g
        if outcome = ResolveOutcome.pending then
          ({ g with pendingDealIndex := some (i + 1) }, true)
        else (g, false)
      else (g, false)
  else (g, false)

/-- The `while (needsCard && player.status === 'active')` loop of
`Game.dealInitialCard`, fuel-indexed (every iteration that loops again
consumed a deck card).  Returns `true` when the deal pauses for a
freeze-target choice. -/
def dealInitialCardLoop (fuel : Nat) (i : Nat) (g : GameState) : GameState × Bool :=
  match fuel with
  | 0 => (g, false)
  | fuel + 1 =>
    match g.players[i]? with
    | none => (g, false)
    | some p =>
      if ¬ statusIs .active p then (g, false)
      else
        match g.deck with
        | [] => (g, false)
        | card :: deckRest =>
          let g := { g with deck := deckRest }
          let (result, p) := processDrawnCard p card
          let g := setPlayer g i p
          if result.triggersFreeze then
            let (outcome, g) := tryResolveFreeze p.id g
            if outcome = ResolveOutcome.pending then
              ({ g with pendingDealIndex := some (i + 1) }, true)
            else (g, false)
          else if result.triggersFlipThree then
            executeFlipThreeDuringDeal i g
          else
            match result.extraSecondChance with
            | some c =>
              dealInitialCardLoop fuel i (giveSecondChanceToOtherPlayer c g)
            | none =>
              if isSecondChanceCard result.card then
                dealInitialCardLoop fuel i g
              else (g, false)

/-- `Game.dealInitialCard`. -/
def dealInitialCard (i : Nat) (g : GameState) : GameState × Bool :=
  dealInitialCardLoop (g.deck.length + 1) i g

/-- `Game.skipInactivePlayers` of the deal epilogue, then enter
`PLAYER_TURN`: `Game.finishInitialDeal` (the `onRoundStart` callback
is external notification only). -/
def finishInitialDeal (g : GameState) : GameState :=
  let g := { g with pendingDealIndex := none }
  let g := { g with currentPlayerIndex := (g.dealerIndex + 1) % g.players.length }
  let g := skipInactivePlayers g
  { g with phase := .PLAYER_TURN }

/-- The `for (let i = startIndex; i < this.players.length; i++)` loop
of `Game.continueInitialDeal`; `k` counts the seats that remain. -/
def continueInitialDealFrom (k : Nat) (startIndex : Nat) (g : GameState) : GameState :=
  match k with
  | 0 => finishInitialDeal g
  | k + 1 =>
    match g.players[startIndex]? with
    | none => finishInitialDeal g
    | some p =>
      if statusIs .active p then
        let (g, paused) := dealInitialCard startIndex g
        if paused then g
        else continueInitialDealFrom k (startIndex + 1) g
      else continueInitialDealFrom k (startIndex + 1) g

/-- `Game.continueInitialDeal`. -/
def continueInitialDeal (startIndex : Nat) (g : GameState) : GameState :=
  continueInitialDealFrom (g.players.length - startIndex) startIndex g

/-- `Game.startNewRound` of the current revision: increment the round
counter, clear the pending interactions, move every player's hand to
the discard pile while resetting hands, round scores and statuses, and
deal — the deck itself is untouched (it is only rebuilt at game
construction and only reshuffled when it runs dry during `hit`). -/
def startNewRound (g : GameState) : GameState :=
  let g := { g with
    round := g.round + 1
    pendingSecondChance := none
    pendingFreezeTarget := none
    pendingFlipThreeTarget := none
    pendingFlipThreeFreeze := none
    pendingDealIndex := none
    flipThreeRemaining := 0 }
  let g := { g with
    discardPile := g.discardPile ++
      (g.players.map (fun (p : Player) => p.cards.map (fun (pc : PlayedCard) => pc.card))).flatten
    players := g.players.map (fun (p : Player) =>
      { p with
        cards := []
        roundScore := 0
        status := if p.isConnected then PlayerStatus.active else PlayerStatus.disconnected }) }
  continueInitialDeal 0 { g with phase := .DEALING }

/-- `Game.selectFreezeTarget`. -/
def selectFreezeTarget (playerId targetPlayerId : String) (g : GameState) : Bool × GameState :=
  if g.phase ≠ .AWAITING_FREEZE_TARGET then (false, g)
  else
    match g.pendingFreezeTarget with
    | none => (false, g)
    | some pending =>
      if pending.playerId ≠ playerId then (false, g)
      else if ¬ targetPlayerId ∈ pending.eligibleTargets then (false, g)
      else
        match getPlayerIdx? g targetPlayerId with
        | none => (false, g)
        | some ti =>
          match g.players[ti]? with
          | none => (false, g)
          | some t =>
            if ¬ statusIs .active t then (false, g)
            else
              let g := setPlayer g ti
                { t with status := .frozen, roundScore := calculateRoundScore t.cards }
              let g := { g with pendingFreezeTarget := none }
              match g.pendingDealIndex with
              | some di => (true, continueInitialDeal di { g with phase := .DEALING })
              | none =>
                let g := { g with phase := .PLAYER_TURN }
                if 0 < g.flipThreeRemaining then
                  match getPlayerIdx? g playerId with
                  | some i =>
                    match g.players[i]? with
                    | some p =>
                      if statusIs .active p then (true, executeFlipThree i g)
                      else
                        (true, advanceToNextPlayer { g with flipThreeRemaining := 0 })
                    | none =>
                      (true, advanceToNextPlayer { g with flipThreeRemaining := 0 })
                  | none =>
                    (true, advanceToNextPlayer { g with flipThreeRemaining := 0 })
                else (true, advanceToNextPlayer g)

/-- `Game.selectFlipThreeTarget`. -/
def selectFlipThreeTarget (playerId targetPlayerId : String) (g : GameState) :
    Bool × GameState :=
  if g.phase ≠ .AWAITING_FLIP_THREE_TARGET then (false, g)
  else
    match g.pendingFlipThreeTarget with
    | none => (false, g)
    | some pending =>
      if pending.playerId ≠ playerId then (false, g)
      else if ¬ targetPlayerId ∈ pending.eligibleTargets then (false, g)
      else
        match getPlayerIdx? g targetPlayerId with
        | none => (false, g)
        | some ti =>
          match g.players[ti]? with
          | none => (false, g)
          | some t =>
            if ¬ statusIs .active t then (false, g)
            else
              let g := { g with
                pendingFlipThreeTarget := none
                phase := .PLAYER_TURN
                flipThreeRemaining := 3 }
              let g := executeFlipThree ti g
              if g.phase = GamePhase.PLAYER_TURN then (true, advanceToNextPlayer g)
              else (true, g)

/-! ### Concrete state builders used by witnesses and counterexamples -/

/-- A player as the `Game` constructor builds one, with a given hand
and status. -/
def mkPlayer (id : String) (cards : List PlayedCard) (status : PlayerStatus) : Player :=
  { id := id, name := id, score := 0, roundScore := 0, cards := cards
    status := status, isHost := false, isConnected := true }

/-- A game state with the given players and deck and every other field
at its quiescent mid-round value. -/
def baseState (players : List Player) (deck : List Card) : GameState :=
  { deck := deck, discardPile := [], players := players, phase := .PLAYER_TURN
    currentPlayerIndex := 0, dealerIndex := 0, round := 1
    settings := DEFAULT_GAME_SETTINGS
    pendingSecondChance := none, pendingFreezeTarget := none
    pendingFlipThreeTarget := none, pendingFlipThreeFreeze := none
    pendingDealIndex := none, flipThreeRemaining := 0, winnerId := none }

/-- Hand the player at seat `s` the single starting card `x` — the
hand shape produced by one `dealInitialCard` that draws a Number card
onto an empty hand. -/
def dealSeat (ps : List Player) (s : Nat) (x : Nat × String) : List Player :=
  match ps[s]? with
  | some p => ps.set s { p with cards := [⟨Card.number x.1 x.2, []⟩] }
  | none => ps

/-- `dealSeat` folded over consecutive seats: seat `s + m` receives
the `m`-th card of `xs`. -/
def dealSeats (ps : List Player) (s : Nat) : List (Nat × String) → List Player
  | [] => ps
  | x :: xs => dealSeats (dealSeat ps s x) (s + 1) xs

/-! ### C3 — scoring -/

/-- The hand {3, 7, 10, 12, Doubler, FlatBonus 5} of the worked
example in the spec. -/
def exampleHand69 : List PlayedCard :=
  [⟨.number 3 "n3", []⟩, ⟨.number 7 "n7", []⟩, ⟨.number 10 "n10", []⟩,
   ⟨.number 12 "n12", []⟩, ⟨.modifier .x2 "mx2", []⟩, ⟨.modifier (.plus 5) "m5", []⟩]

/-- C3: for every hand, the round score is the sum of Number values,
doubled when a Doubler is present, plus the flat bonuses, plus 15 when
at least 7 distinct Number values are held; action cards contribute
nothing; the result is invariant under reordering of the hand; and
every ordering of {3,7,10,12,Doubler,FlatBonus 5} scores 69. -/
theorem C3_score_formula_order_independent :
    (∀ cards : List PlayedCard,
      calculateRoundScore cards =
        (if cards.any isX2 then 2 * (cards.filterMap numberValue?).sum
         else (cards.filterMap numberValue?).sum)
        + (cards.filterMap flatBonus?).sum
        + (if 7 ≤ (cards.filterMap numberValue?).toFinset.card then 15 else 0))
    ∧ (∀ (pre post : List PlayedCard) (a : ActionKind) (id : String),
        calculateRoundScore (pre ++ ⟨.action a id, []⟩ :: post) =
        calculateRoundScore (pre ++ post))
    ∧ (∀ l₁ l₂ : List PlayedCard, l₁.Perm l₂ →
        calculateRoundScore l₁ = calculateRoundScore l₂)
    ∧ (∀ l : List PlayedCard, l.Perm exampleHand69 → calculateRoundScore l = 69) := by
  have hany : ∀ (l₁ l₂ : List PlayedCard), l₁.Perm l₂ → l₁.any isX2 = l₂.any isX2 := by
    intro l₁ l₂ h
    cases hb : l₂.any isX2 with
    | false =>
      rw [List.any_eq_false] at hb ⊢
      exact fun x hx => hb x (h.mem_iff.mp hx)
    | true =>
      rw [List.any_eq_true] at hb ⊢
      obtain ⟨x, hx, hfx⟩ := hb
      exact ⟨x, h.mem_iff.mpr hx, hfx⟩
  have hperm : ∀ l₁ l₂ : List PlayedCard, l₁.Perm l₂ →
      calculateRoundScore l₁ = calculateRoundScore l₂ := by
    intro l₁ l₂ h
    simp only [calculateRoundScore]
    rw [(h.filterMap numberValue?).sum_eq, (h.filterMap flatBonus?).sum_eq,
      List.toFinset_eq_of_perm _ _ (h.filterMap numberValue?), hany l₁ l₂ h]
  refine ⟨?_, ?_, hperm, ?_⟩
  · intro cards
    simp only [calculateRoundScore]
    split_ifs <;> omega
  · intro pre post a id
    unfold calculateRoundScore
    simp [List.filterMap_append, List.any_append, numberValue?, flatBonus?, isX2]
  · intro l hl
    rw [hperm l exampleHand69 hl]
    decide

/-- Witness for C3: a reordering of the example hand — bonus and
Doubler first — is a permutation of it and scores 69. -/
theorem C3_score_formula_order_independent_witness :
    calculateRoundScore
      [⟨.modifier (.plus 5) "m5", []⟩, ⟨.modifier .x2 "mx2", []⟩,
       ⟨.number 12 "n12", []⟩, ⟨.number 10 "n10", []⟩,
       ⟨.number 7 "n7", []⟩, ⟨.number 3 "n3", []⟩] = 69 :=
  C3_score_formula_order_independent.2.2.2 _ (by decide)

/-! ### C7 — round-end score accumulation -/

/-- All branches of `endRound` leave the player list at the mapped
banking update; the winner bookkeeping only touches `phase`,
`winnerId` and `dealerIndex`. -/
theorem endRound_players (g : GameState) :
    (endRound g).players = g.players.map (fun p =>
      if p.status = PlayerStatus.passed ∨ p.status = PlayerStatus.frozen then
        { p with score := p.score + p.roundScore }
      else p) := by
  simp only [endRound]
  split
  · split <;> rfl
  · rfl

/-- C7: at round end every `passed` (stopped) or `frozen` player's
banked total grows by exactly their round score, and every other
player's banked total — in particular `busted` and `disconnected`
players' — is unchanged, as is everything else about the player. -/
theorem C7_endRound_banking (g : GameState) (i : Nat) (p : Player)
    (hp : g.players[i]? = some p) :
    (endRound g).players[i]? =
      some (if p.status = PlayerStatus.passed ∨ p.status = PlayerStatus.frozen then
              { p with score := p.score + p.roundScore }
            else p) := by
  rw [endRound_players, List.getElem?_map, hp]
  rfl

/-- Witness for C7: a passed player with round score 7 banks exactly
7 points at round end. -/
theorem C7_endRound_banking_witness :
    (endRound (baseState
        [{ mkPlayer "p1" [] .passed with roundScore := 7 },
         mkPlayer "p2" [] .busted]
        [])).players[0]? =
      some { mkPlayer "p1" [] .passed with roundScore := 7, score := 7 } := by
  rw [C7_endRound_banking _ 0 { mkPlayer "p1" [] .passed with roundScore := 7 } (by decide)]
  decide

/-! ### C2 — the deck across round boundaries

The lemmas below track the deck through every function reachable from
`startNewRound` and `hit`: none of them ever rebuilds or reshuffles
the deck — they only remove cards from the top. -/

theorem setPlayer_deck (g : GameState) (i : Nat) (p : Player) :
    (setPlayer g i p).deck = g.deck := rfl

theorem giveSecondChanceToOtherPlayer_deck (c : Card) (g : GameState) :
    (giveSecondChanceToOtherPlayer c g).deck = g.deck := by
  simp only [giveSecondChanceToOtherPlayer]
  split
  · split <;> rfl
  · rfl

theorem tryResolveFreeze_deck (pid : String) (g : GameState) :
    (tryResolveFreeze pid g).2.deck = g.deck := by
  simp only [tryResolveFreeze]
  split
  · rfl
  · split
    · split <;> rfl
    · rfl
  · rfl

theorem endRound_deck (g : GameState) :
    (endRound g).deck = g.deck := by
  simp only [endRound]
  split
  · split <;> rfl
  · rfl

theorem advanceToNextPlayer_deck (g : GameState) :
    (advanceToNextPlayer g).deck = g.deck := by
  simp only [advanceToNextPlayer]
  split
  · exact endRound_deck g
  · split
    · rfl
    · exact endRound_deck g

theorem skipInactivePlayers_deck (g : GameState) :
    (skipInactivePlayers g).deck = g.deck := rfl

theorem finishInitialDeal_deck (g : GameState) :
    (finishInitialDeal g).deck = g.deck := rfl

theorem deck_suffix_of_eq {d X e : List Card}
    (h1 : X = d) (h2 : d.IsSuffix e) : X.IsSuffix e := h1 ▸ h2

theorem flipThreeDealLoop_deck_suffix (k : Nat) :
    ∀ (i : Nat) (fd : Bool) (g : GameState),
      ((flipThreeDealLoop k i fd g).2.deck).IsSuffix g.deck := by
  induction k with
  | zero => intro i fd g; exact List.suffix_rfl
  | succ k ih =>
    intro i fd g
    rw [flipThreeDealLoop]
    split
    · exact List.suffix_rfl
    · rename_i p hp
      split
      · exact List.suffix_rfl
      · split
        · exact List.suffix_rfl
        · rename_i card deckRest hdeck
          have hsub : deckRest.IsSuffix g.deck := by
            rw [hdeck]; exact List.suffix_cons card deckRest
          dsimp only
          rcases hr : processDrawnCard p card with ⟨r, p2⟩
          dsimp only
          split
          · exact hsub
          · split
            · refine (ih i _ _).trans ?_
              split
              · split
                · exact hsub
                · exact hsub
              · exact hsub
            · split
              · exact (ih i _ _).trans hsub
              · refine (ih i _ _).trans ?_
                split
                · rw [giveSecondChanceToOtherPlayer_deck]; exact hsub
                · exact hsub

theorem executeFlipThreeDuringDeal_deck_suffix (i : Nat) (g : GameState) :
    ((executeFlipThreeDuringDeal i g).1.deck).IsSuffix g.deck := by
  rw [executeFlipThreeDuringDeal]
  rcases hl : flipThreeDealLoop 3 i false g with ⟨fd, g2⟩
  have h2 : g2.deck.IsSuffix g.deck := by
    have := flipThreeDealLoop_deck_suffix 3 i false g
    rw [hl] at this
    exact this
  dsimp only
  split
  · split
    · exact h2
    · rename_i p hp
      split
      · exact h2
      · split
        · rcases ht : tryResolveFreeze p.id g2 with ⟨outcome, g3⟩
          have h3 : g3.deck = g2.deck := by
            have h := tryResolveFreeze_deck p.id g2
            rw [ht] at h
            exact h
          dsimp only
          split
          · show g3.deck.IsSuffix g.deck
            rw [h3]; exact h2
          · show g3.deck.IsSuffix g.deck
            rw [h3]; exact h2
        · exact h2
  · exact h2

theorem dealInitialCardLoop_deck_suffix (fuel : Nat) :
    ∀ (i : Nat) (g : GameState),
      ((dealInitialCardLoop fuel i g).1.deck).IsSuffix g.deck := by
  induction fuel with
  | zero => intro i g; exact List.suffix_rfl
  | succ fuel ih =>
    intro i g
    rw [dealInitialCardLoop]
    split
    · exact List.suffix_rfl
    · rename_i p hp
      split
      · exact List.suffix_rfl
      · split
        · exact List.suffix_rfl
        · rename_i card deckRest hdeck
          have hsub : deckRest.IsSuffix g.deck := by
            rw [hdeck]; exact List.suffix_cons card deckRest
          dsimp only
          rcases hr : processDrawnCard p card with ⟨r, p2⟩
          dsimp only
          split
          · rcases ht : tryResolveFreeze p2.id _ with ⟨outcome, g3⟩
            have h3 : g3.deck = deckRest := by
              have h := tryResolveFreeze_deck p2.id
                (setPlayer { g with deck := deckRest } i p2)
              rw [ht] at h
              exact h
            dsimp only
            split
            · show g3.deck.IsSuffix g.deck
              rw [h3]; exact hsub
            · show g3.deck.IsSuffix g.deck
              rw [h3]; exact hsub
          · split
            · refine (executeFlipThreeDuringDeal_deck_suffix i _).trans ?_
              exact hsub
            · split
              · refine (ih i _).trans ?_
                rw [giveSecondChanceToOtherPlayer_deck]
                exact hsub
              · split
                · exact (ih i _).trans hsub
                · exact hsub

theorem dealInitialCard_deck_suffix (i : Nat) (g : GameState) :
    ((dealInitialCard i g).1.deck).IsSuffix g.deck :=
  dealInitialCardLoop_deck_suffix _ i g

theorem continueInitialDealFrom_deck_suffix (k : Nat) :
    ∀ (startIndex : Nat) (g : GameState),
      ((continueInitialDealFrom k startIndex g).deck).IsSuffix g.deck := by
  induction k with
  | zero =>
    intro s g
    rw [continueInitialDealFrom]
    rw [finishInitialDeal_deck]
  | succ k ih =>
    intro s g
    rw [continueInitialDealFrom]
    split
    · rw [finishInitialDeal_deck]
    · split
      · rcases hd : dealInitialCard s g with ⟨g2, paused⟩
        have h2 : g2.deck.IsSuffix g.deck := by
          have h := dealInitialCard_deck_suffix s g
          rw [hd] at h
          exact h
        dsimp only
        split
        · exact h2
        · exact (ih _ _).trans h2
      · exact ih _ _

theorem continueInitialDeal_deck_suffix (startIndex : Nat) (g : GameState) :
    ((continueInitialDeal startIndex g).deck).IsSuffix g.deck :=
  continueInitialDealFrom_deck_suffix _ _ g

/-- `startNewRound` never rebuilds or reshuffles the deck: its result
deck is a suffix (the undrawn bottom part) of the incoming deck. -/
theorem startNewRound_deck_suffix (g : GameState) :
    ((startNewRound g).deck).IsSuffix g.deck :=
  continueInitialDeal_deck_suffix 0 _

theorem executeFlipThreeLoop_deck_suffix (fuel : Nat) :
    ∀ (i : Nat) (g : GameState),
      ((executeFlipThreeLoop fuel i g).1.deck).IsSuffix g.deck := by
  induction fuel with
  | zero => intro i g; exact List.suffix_rfl
  | succ fuel ih =>
    intro i g
    rw [executeFlipThreeLoop]
    split
    · exact List.suffix_rfl
    · rename_i p hp
      split
      · dsimp only
        split
        · exact ih i _
        · rename_i card deckRest hdeck
          have hsub : deckRest.IsSuffix g.deck := by
            rw [hdeck]; exact List.suffix_cons card deckRest
          rcases hr : processDrawnCard p card with ⟨r, p2⟩
          dsimp only
          rcases he : r.extraSecondChance with _ | c
          · dsimp only
            split
            · exact hsub
            · split
              · exact hsub
              · split
                · exact deck_suffix_of_eq (by split <;> (try split) <;> rfl) hsub
                · refine (ih i _).trans ?_
                  refine deck_suffix_of_eq ?_ hsub
                  split <;> (try split) <;> rfl
          · dsimp only
            split
            · refine deck_suffix_of_eq ?_ hsub
              show (giveSecondChanceToOtherPlayer c _).deck = deckRest
              rw [giveSecondChanceToOtherPlayer_deck] <;> rfl
            · split
              · refine deck_suffix_of_eq ?_ hsub
                show (giveSecondChanceToOtherPlayer c _).deck = deckRest
                rw [giveSecondChanceToOtherPlayer_deck] <;> rfl
              · split
                · refine deck_suffix_of_eq ?_ hsub
                  split <;> (try split) <;>
                    (show (giveSecondChanceToOtherPlayer c _).deck = deckRest;
                     rw [giveSecondChanceToOtherPlayer_deck] <;> rfl)
                · refine (ih i _).trans ?_
                  refine deck_suffix_of_eq ?_ hsub
                  split <;> (try split) <;>
                    (show (giveSecondChanceToOtherPlayer c _).deck = deckRest;
                     rw [giveSecondChanceToOtherPlayer_deck] <;> rfl)
      · exact List.suffix_rfl

theorem executeFlipThree_deck_suffix (i : Nat) (g : GameState) :
    ((executeFlipThree i g).deck).IsSuffix g.deck := by
  rw [executeFlipThree]
  rcases hl : executeFlipThreeLoop (flipThreeFuel g) i g with ⟨g2, early⟩
  have h2 : g2.deck.IsSuffix g.deck := by
    have h := executeFlipThreeLoop_deck_suffix (flipThreeFuel g) i g
    rw [hl] at h; exact h
  dsimp only
  split
  · exact h2
  · cases hp2 : g2.players[i]? with
    | none =>
      refine deck_suffix_of_eq ?_ h2
      simp [hp2]
    | some p =>
      dsimp only
      cases hpf : g2.pendingFlipThreeFreeze with
      | none =>
        refine deck_suffix_of_eq ?_ h2
        simp [hp2, apply_ite GameState.deck, advanceToNextPlayer_deck]
      | some pid =>
        dsimp only
        split
        · split
          · refine deck_suffix_of_eq ?_ h2
            simp [hp2, apply_ite GameState.deck, advanceToNextPlayer_deck]
          · split
            · rcases htf : tryResolveFreeze p.id
                { g2 with flipThreeRemaining := 0, pendingFlipThreeFreeze := none } with
                ⟨outcome, g4⟩
              have h4 : g4.deck.IsSuffix g.deck := by
                have h := tryResolveFreeze_deck p.id
                  { g2 with flipThreeRemaining := 0, pendingFlipThreeFreeze := none }
                rw [htf] at h
                exact deck_suffix_of_eq h h2
              dsimp only
              split
              · exact h4
              · refine deck_suffix_of_eq ?_ h4
                cases hq : g4.players[i]? <;>
                  simp [hq, apply_ite GameState.deck, advanceToNextPlayer_deck]
            · refine deck_suffix_of_eq ?_ h2
              simp [hp2, apply_ite GameState.deck, advanceToNextPlayer_deck]
        · refine deck_suffix_of_eq ?_ h2
          simp [hp2, apply_ite GameState.deck, advanceToNextPlayer_deck]

theorem tryResolveFlipThree_deck_suffix (pid : String) (g : GameState) :
    ((tryResolveFlipThree pid g).2.deck).IsSuffix g.deck := by
  rw [tryResolveFlipThree]
  split
  · exact List.suffix_rfl
  · split
    · exact executeFlipThree_deck_suffix _ _
    · exact List.suffix_rfl
  · exact List.suffix_rfl

theorem handleDrawnCard_deck_suffix (i : Nat) (card : Card) (g : GameState) :
    ((handleDrawnCard i card g).2.deck).IsSuffix g.deck := by
  rw [handleDrawnCard]
  split
  · exact List.suffix_rfl
  · rename_i p hp
    rcases hr : processDrawnCard p card with ⟨r, p2⟩
    dsimp only
    rcases he : r.extraSecondChance with _ | c
    · dsimp only
      split
      · split
        · exact List.suffix_rfl
        · refine deck_suffix_of_eq ?_ (List.suffix_rfl)
          rw [advanceToNextPlayer_deck] <;> rfl
      · split
        · rcases htf : tryResolveFreeze p2.id (setPlayer g i p2) with ⟨outcome, g4⟩
          have h4 : g4.deck = g.deck := by
            have h := tryResolveFreeze_deck p2.id (setPlayer g i p2)
            rw [htf] at h; exact h
          dsimp only
          split
          · exact deck_suffix_of_eq h4 List.suffix_rfl
          · refine deck_suffix_of_eq ?_ List.suffix_rfl
            rw [advanceToNextPlayer_deck, h4]
        · split
          · rcases htf : tryResolveFlipThree p2.id (setPlayer g i p2) with ⟨outcome, g4⟩
            have h4 : g4.deck.IsSuffix g.deck := by
              have h := tryResolveFlipThree_deck_suffix p2.id (setPlayer g i p2)
              rw [htf] at h; exact h
            dsimp only
            split
            · exact h4
            · refine deck_suffix_of_eq ?_ h4
              rw [advanceToNextPlayer_deck] <;> rfl
          · split
            · refine deck_suffix_of_eq ?_ (List.suffix_rfl)
              rw [advanceToNextPlayer_deck] <;> rfl
            · refine deck_suffix_of_eq ?_ (List.suffix_rfl)
              rw [advanceToNextPlayer_deck] <;> rfl
    · dsimp only
      have hgc : ∀ G : GameState,
          (giveSecondChanceToOtherPlayer c G).deck = G.deck :=
        fun G => giveSecondChanceToOtherPlayer_deck c G
      split
      · split
        · refine deck_suffix_of_eq ?_ (List.suffix_rfl)
          rw [hgc] <;> rfl
        · refine deck_suffix_of_eq ?_ (List.suffix_rfl)
          rw [advanceToNextPlayer_deck]
          show (giveSecondChanceToOtherPlayer c _).deck = g.deck
          rw [hgc] <;> rfl
      · split
        · rcases htf : tryResolveFreeze p2.id
            (giveSecondChanceToOtherPlayer c (setPlayer g i p2)) with ⟨outcome, g4⟩
          have h4 : g4.deck = g.deck := by
            have h := tryResolveFreeze_deck p2.id
              (giveSecondChanceToOtherPlayer c (setPlayer g i p2))
            rw [htf, hgc] at h
            exact h
          dsimp only
          split
          · exact deck_suffix_of_eq h4 List.suffix_rfl
          · refine deck_suffix_of_eq ?_ List.suffix_rfl
            rw [advanceToNextPlayer_deck, h4]
        · split
          · rcases htf : tryResolveFlipThree p2.id
              (giveSecondChanceToOtherPlayer c (setPlayer g i p2)) with ⟨outcome, g4⟩
            have h4 : g4.deck.IsSuffix g.deck := by
              have h := tryResolveFlipThree_deck_suffix p2.id
                (giveSecondChanceToOtherPlayer c (setPlayer g i p2))
              rw [htf, hgc] at h
              exact h
            dsimp only
            split
            · exact h4
            · refine deck_suffix_of_eq ?_ h4
              rw [advanceToNextPlayer_deck] <;> rfl
          · split
            · refine deck_suffix_of_eq ?_ (List.suffix_rfl)
              rw [advanceToNextPlayer_deck]
              show (giveSecondChanceToOtherPlayer c _).deck = g.deck
              rw [hgc] <;> rfl
            · refine deck_suffix_of_eq ?_ (List.suffix_rfl)
              rw [advanceToNextPlayer_deck, hgc] <;> rfl

/-- C2: starting a new round moves every player's hand to the discard
pile, resets hands, round scores and statuses, and leaves the deck
alone — it is neither rebuilt nor reshuffled; the subsequent deal and
any non-dry draw only remove cards from the top of the deck, and cards
return to the deck only on the dry-deck path of `hit`, which rebuilds
it from the discard pile. -/
theorem C2_startNewRound_deck_conserved (g : GameState) :
    (∃ g' : GameState,
      startNewRound g = continueInitialDeal 0 g' ∧
      g'.deck = g.deck ∧
      g'.discardPile = g.discardPile ++
        (g.players.map (fun (p : Player) => p.cards.map (fun (pc : PlayedCard) => pc.card))).flatten ∧
      g'.players = g.players.map (fun (p : Player) =>
        { p with
          cards := []
          roundScore := 0
          status := if p.isConnected then PlayerStatus.active else PlayerStatus.disconnected }) ∧
      g'.round = g.round + 1 ∧ g'.phase = GamePhase.DEALING)
    ∧ ((startNewRound g).deck).IsSuffix g.deck
    ∧ (∀ (shuffle : List Card → List Card) (pid : String),
        g.deck ≠ [] → ((hit shuffle pid g).2.deck).IsSuffix g.deck)
    ∧ (∀ (shuffle : List Card → List Card) (pid : String),
        g.deck = [] →
          ((hit shuffle pid g).2.deck).IsSuffix (shuffle (Deck.addCards [] g.discardPile))) := by
  refine ⟨⟨_, rfl, rfl, rfl, rfl, rfl, rfl⟩, startNewRound_deck_suffix g, ?_, ?_⟩
  · intro shuffle pid hne
    rw [hit]
    split
    · exact List.suffix_rfl
    · rename_i i hi
      split
      · exact List.suffix_rfl
      · split
        · exact List.suffix_rfl
        · split
          · exact List.suffix_rfl
          · split
            · rename_i card deckRest hdeck
              rcases hh : handleDrawnCard i card { g with deck := deckRest } with ⟨r, g2⟩
              have h2 : g2.deck.IsSuffix deckRest := by
                have h := handleDrawnCard_deck_suffix i card { g with deck := deckRest }
                rw [hh] at h
                exact h
              dsimp only
              rw [hh]
              refine h2.trans ?_
              rw [hdeck]
              exact List.suffix_cons card deckRest
            · rename_i hdeck
              exact absurd hdeck hne
  · intro shuffle pid hnil
    rw [hit]
    split
    · rw [hnil]; exact List.nil_suffix
    · rename_i i hi
      split
      · rw [hnil]; exact List.nil_suffix
      · split
        · rw [hnil]; exact List.nil_suffix
        · split
          · rw [hnil]; exact List.nil_suffix
          · split
            · rename_i card deckRest hdeck
              rw [hnil] at hdeck
              exact absurd hdeck (by simp)
            · rename_i hdeck
              dsimp only
              split
              · rename_i hsh
                refine deck_suffix_of_eq ?_ List.suffix_rfl
                rfl
              · rename_i card deckRest hsh
                rcases hh : handleDrawnCard i card
                  { g with deck := deckRest, discardPile := [] } with ⟨r, g2⟩
                have h2 : g2.deck.IsSuffix deckRest := by
                  have h := handleDrawnCard_deck_suffix i card
                    { g with deck := deckRest, discardPile := [] }
                  rw [hh] at h
                  exact h
                dsimp only
                refine h2.trans ?_
                rw [hsh]
                exact List.suffix_cons card deckRest

/-- Witness for C2: in a concrete two-player game mid-round, a draw
from a non-empty deck leaves the rest of the deck a suffix of what it
was, and the round-start bookkeeping preserves the deck. -/
theorem C2_startNewRound_deck_conserved_witness :
    ((hit id "p1" (baseState
        [mkPlayer "p1" [] .active, mkPlayer "p2" [] .active]
        [Card.number 4 "n4", Card.number 9 "n9"])).2.deck).IsSuffix
      [Card.number 4 "n4", Card.number 9 "n9"] :=
  (C2_startNewRound_deck_conserved (baseState
      [mkPlayer "p1" [] .active, mkPlayer "p2" [] .active]
      [Card.number 4 "n4", Card.number 9 "n9"])).2.2.1 id "p1" (by decide)

/-- A `findIdx?` over a list containing an element satisfying the
predicate returns an index. -/
theorem findIdx_isSome_of_exists {α : Type} (pred : α → Bool) (l : List α)
    (h : ∃ x ∈ l, pred x = true) : ∃ i, l.findIdx? pred = some i := by
  cases hf : l.findIdx? pred with
  | some i => exact ⟨i, rfl⟩
  | none =>
    rw [List.findIdx?_eq_none_iff] at hf
    obtain ⟨x, hx, hpx⟩ := h
    have hfx := hf x hx
    rw [hpx] at hfx
    cases hfx

/-- Every id in the eligible-target list resolves to a player index. -/
theorem getPlayerIdx_of_eligible (g : GameState) (t : String)
    (h : t ∈ getEligibleFreezeTargets g) : ∃ ti, getPlayerIdx? g t = some ti := by
  unfold getEligibleFreezeTargets at h
  rw [List.mem_map] at h
  obtain ⟨q, hq, hqt⟩ := h
  refine findIdx_isSome_of_exists _ _ ⟨q, List.mem_of_mem_filter hq, ?_⟩
  rw [hqt]
  simp

/-- In `handleDrawnCard` every branch passes the `DrawResult` of
`processDrawnCard` through unchanged as the first component. -/
theorem handleDrawnCard_fst (i : Nat) (card : Card) (g : GameState) (p : Player)
    (hp : g.players[i]? = some p) :
    (handleDrawnCard i card g).1 = (processDrawnCard p card).1 := by
  rw [handleDrawnCard, hp]
  rcases hr : processDrawnCard p card with ⟨r, p2⟩
  dsimp only
  repeat' split
  all_goals first | rfl | (rw [hr] <;> rfl)

/-- C1: drawing a Draw-Three (`flip_three`) action card in normal play
appends it to the drawer's hand, computes the eligible targets exactly
as for Freeze (all active connected players, on the post-append
state), then: with a single eligible target the three-draw sequence is
executed on that target immediately, and with several eligible targets
the engine pauses in `AWAITING_FLIP_THREE_TARGET` recording the drawer
and the eligible list — it does not execute the sequence
unconditionally on the drawer. -/
theorem C1_draw_three_targeting (g : GameState) (i : Nat) (p : Player) (cid : String)
    (hp : g.players[i]? = some p) :
    ((handleDrawnCard i (Card.action .flip_three cid) g).1.triggersFlipThree = true) ∧
    (∀ t, getEligibleFreezeTargets
        (setPlayer g i { p with cards := p.cards ++ [⟨Card.action .flip_three cid, []⟩] }) = [t] →
      ∃ ti, getPlayerIdx?
          (setPlayer g i { p with cards := p.cards ++ [⟨Card.action .flip_three cid, []⟩] }) t
            = some ti ∧
        (handleDrawnCard i (Card.action .flip_three cid) g).2 =
          advanceToNextPlayer (executeFlipThree ti
            { (setPlayer g i { p with cards := p.cards ++ [⟨Card.action .flip_three cid, []⟩] }) with
                flipThreeRemaining := 3 })) ∧
    (∀ t₁ t₂ rest, getEligibleFreezeTargets
        (setPlayer g i { p with cards := p.cards ++ [⟨Card.action .flip_three cid, []⟩] })
          = t₁ :: t₂ :: rest →
      (handleDrawnCard i (Card.action .flip_three cid) g).2 =
        { (setPlayer g i { p with cards := p.cards ++ [⟨Card.action .flip_three cid, []⟩] }) with
            pendingFlipThreeTarget := some
              { playerId := p.id, eligibleTargets := t₁ :: t₂ :: rest }
            phase := .AWAITING_FLIP_THREE_TARGET }) := by
  refine ⟨?_, ?_, ?_⟩
  · rw [handleDrawnCard_fst i _ g p hp]
    rfl
  · intro t helig
    obtain ⟨ti, hti⟩ := getPlayerIdx_of_eligible _ t (by rw [helig]; exact List.mem_singleton_self t)
    refine ⟨ti, hti, ?_⟩
    rw [handleDrawnCard, hp]
    dsimp only [processDrawnCard, DrawResult.init]
    simp only [reduceIte]
    rw [tryResolveFlipThree]
    rw [helig]
    dsimp only
    rw [hti]
    rfl
  · intro t₁ t₂ rest helig
    rw [handleDrawnCard, hp]
    dsimp only [processDrawnCard, DrawResult.init]
    simp only [reduceIte]
    rw [tryResolveFlipThree]
    rw [helig]
    rfl

/-- Witness for C1: with two active players a drawn Draw-Three pauses
in `AWAITING_FLIP_THREE_TARGET` with both players eligible. -/
theorem C1_draw_three_targeting_witness :
    (handleDrawnCard 0 (Card.action .flip_three "f3") (baseState
        [mkPlayer "p1" [] .active, mkPlayer "p2" [] .active] [])).2 =
      { (setPlayer (baseState [mkPlayer "p1" [] .active, mkPlayer "p2" [] .active] []) 0
          { mkPlayer "p1" [] .active with
              cards := [] ++ [⟨Card.action .flip_three "f3", []⟩] }) with
          pendingFlipThreeTarget := some { playerId := "p1", eligibleTargets := ["p1", "p2"] }
          phase := .AWAITING_FLIP_THREE_TARGET } :=
  (C1_draw_three_targeting
      (baseState [mkPlayer "p1" [] .active, mkPlayer "p2" [] .active] [])
      0 (mkPlayer "p1" [] .active) "f3" (by decide)).2.2 "p1" "p2" [] (by decide)

/-- C5: inside `executeFlipThree`, drawing a nested Draw-Three card
appends it to the target's hand and adds three to the remaining draw
count of the *same* loop invocation (after the usual decrement) — no
separate sequence, pause or pending interaction is created — and in a
concrete run a target with three remaining draws whose first card is a
nested Draw-Three ends up drawing six cards in total. -/
theorem C5_nested_flip_three_extends :
    (∀ (fuel i : Nat) (g : GameState) (p : Player) (cid : String) (rest : List Card),
      g.players[i]? = some p →
      p.status = PlayerStatus.active →
      0 < g.flipThreeRemaining →
      g.deck = Card.action .flip_three cid :: rest →
      executeFlipThreeLoop (fuel + 1) i g =
        executeFlipThreeLoop fuel i
          { (setPlayer g i
              { p with cards := p.cards ++ [⟨Card.action .flip_three cid, []⟩] }) with
              deck := rest
              flipThreeRemaining := g.flipThreeRemaining - 1 + 3 })
    ∧ (((executeFlipThree 0
          { baseState [mkPlayer "t" [] .active]
              [Card.action .flip_three "f3", Card.number 1 "n1", Card.number 2 "n2",
               Card.number 3 "n3", Card.number 4 "n4", Card.number 5 "n5"] with
              flipThreeRemaining := 3 }).players[0]?).map
        (fun q => q.cards.length) = some 6 ∧
      (executeFlipThree 0
          { baseState [mkPlayer "t" [] .active]
              [Card.action .flip_three "f3", Card.number 1 "n1", Card.number 2 "n2",
               Card.number 3 "n3", Card.number 4 "n4", Card.number 5 "n5"] with
              flipThreeRemaining := 3 }).deck = []) := by
  constructor
  · intro fuel i g p cid rest hp hstatus hrem hdeck
    rw [executeFlipThreeLoop, hp]
    have hcond : (decide (0 < g.flipThreeRemaining) && statusIs .active p) = true := by
      simp [statusIs, hstatus, hrem]
    dsimp only
    rw [if_pos hcond]
    rw [hdeck]
    dsimp only [processDrawnCard, DrawResult.init]
    simp only [Bool.false_and, Bool.and_false, Bool.true_and, Bool.and_true,
      Bool.not_false, Bool.not_true, Bool.false_eq_true, Bool.true_eq_false,
      eq_self_iff_true, if_true, if_false, reduceIte]
    have hpass : statusIs .passed
        { p with cards := p.cards ++ [⟨Card.action .flip_three cid, []⟩] } = false := by
      simp [statusIs, hstatus]
    rw [if_neg (by simp [hpass])]
    rfl
  · constructor <;> decide

/-- Witness for C5: the unfold equation evaluated on a concrete state
whose top deck card is a nested Draw-Three. -/
theorem C5_nested_flip_three_extends_witness :
    executeFlipThreeLoop 8 0
      { baseState [mkPlayer "t" [] .active]
          [Card.action .flip_three "f3", Card.number 1 "n1"] with flipThreeRemaining := 2 } =
    executeFlipThreeLoop 7 0
      { (setPlayer
          { baseState [mkPlayer "t" [] .active]
              [Card.action .flip_three "f3", Card.number 1 "n1"] with flipThreeRemaining := 2 } 0
          { mkPlayer "t" [] .active with
              cards := [] ++ [⟨Card.action .flip_three "f3", []⟩] }) with
          deck := [Card.number 1 "n1"]
          flipThreeRemaining := 2 - 1 + 3 } :=
  C5_nested_flip_three_extends.1 7 0 _ (mkPlayer "t" [] .active) "f3"
    [Card.number 1 "n1"] (by decide) (by decide) (by decide) (by decide)

/-- The element at a `findIdx?` hit satisfies the predicate. -/
theorem findIdx_pred_at {α : Type} (pred : α → Bool) (l : List α) (k : Nat) (x : α)
    (hf : l.findIdx? pred = some k) (hx : l[k]? = some x) : pred x = true := by
  rw [List.findIdx?_eq_some_iff_getElem] at hf
  obtain ⟨hk, hpk, _⟩ := hf
  rw [List.getElem?_eq_getElem hk] at hx
  exact (Option.some.inj hx) ▸ hpk

/-- C9: accepting a pending bust-insurance choice removes exactly the
one Second Chance card (the first in hand) and pushes it and the
duplicate onto the discard pile, leaves every other card of the hand
in place (the hand becomes `take k ++ drop (k+1)`), clears the pending
record, returns to `PLAYER_TURN`, and resumes the interrupted
Draw-Three exactly when `flipThreeRemaining` is still positive. -/
theorem C9_second_chance_accept (g : GameState) (pid : String) (dup : Card)
    (i k : Nat) (p : Player) (scP : PlayedCard)
    (hphase : g.phase = .AWAITING_SECOND_CHANCE)
    (hpend : g.pendingSecondChance = some { playerId := pid, duplicateCard := dup })
    (hidx : getPlayerIdx? g pid = some i)
    (hp : g.players[i]? = some p)
    (hsc : getSecondChanceIndex p = some k)
    (hscP : p.cards[k]? = some scP) :
    useSecondChance pid true g =
      (if 0 < g.flipThreeRemaining then
        (true, executeFlipThree i
          { (setPlayer g i { p with cards := p.cards.eraseIdx k }) with
              discardPile := g.discardPile ++ [scP.card, dup]
              pendingSecondChance := none
              phase := GamePhase.PLAYER_TURN })
      else
        (true,
          { (setPlayer g i { p with cards := p.cards.eraseIdx k }) with
              discardPile := g.discardPile ++ [scP.card, dup]
              pendingSecondChance := none
              phase := GamePhase.PLAYER_TURN })) ∧
    isSecondChancePlayed scP = true ∧
    p.cards.eraseIdx k = p.cards.take k ++ p.cards.drop (k + 1) := by
  refine ⟨?_, findIdx_pred_at _ _ _ _ hsc hscP, List.eraseIdx_eq_take_drop_succ _ _⟩
  rw [useSecondChance]
  rw [if_neg (by rw [hphase]; exact fun h => h rfl)]
  rw [hpend]
  dsimp only
  rw [if_neg (by exact fun h => h rfl)]
  rw [hidx]
  dsimp only
  rw [hp]
  dsimp only
  rw [if_pos rfl]
  rw [hsc]
  dsimp only
  rw [hscP]
  rfl

/-- Witness for C9: a player holding a Second Chance and a 5 accepts
the insurance against a duplicate 5; only the insurance card leaves
the hand, and it and the duplicate are discarded. -/
theorem C9_second_chance_accept_witness :
    useSecondChance "p1" true
      { baseState
          [mkPlayer "p1" [⟨Card.action .second_chance "sc", []⟩, ⟨Card.number 5 "n5", []⟩]
            .active] [] with
          phase := .AWAITING_SECOND_CHANCE
          pendingSecondChance := some { playerId := "p1", duplicateCard := Card.number 5 "n5d" } } =
      (true,
        { baseState [mkPlayer "p1" [⟨Card.number 5 "n5", []⟩] .active] [] with
            discardPile := [Card.action .second_chance "sc", Card.number 5 "n5d"]
            phase := .PLAYER_TURN }) := by
  rw [(C9_second_chance_accept _ "p1" (Card.number 5 "n5d") 0 0
      (mkPlayer "p1" [⟨Card.action .second_chance "sc", []⟩, ⟨Card.number 5 "n5", []⟩] .active)
      ⟨Card.action .second_chance "sc", []⟩
      (by decide) (by decide) (by decide) (by decide) (by decide) (by decide)).1]
  decide

theorem giveSecondChanceToOtherPlayer_pendingSecondChance (c : Card) (g : GameState) :
    (giveSecondChanceToOtherPlayer c g).pendingSecondChance = g.pendingSecondChance := by
  simp only [giveSecondChanceToOtherPlayer]
  split
  · split <;> rfl
  · rfl

theorem giveSecondChanceToOtherPlayer_phase (c : Card) (g : GameState) :
    (giveSecondChanceToOtherPlayer c g).phase = g.phase := by
  simp only [giveSecondChanceToOtherPlayer]
  split
  · split <;> rfl
  · rfl

theorem tryResolveFreeze_pendingSecondChance (pid : String) (g : GameState) :
    (tryResolveFreeze pid g).2.pendingSecondChance = g.pendingSecondChance := by
  rw [tryResolveFreeze]
  split
  · rfl
  · split
    · split <;> rfl
    · rfl
  · rfl

theorem tryResolveFreeze_phase (pid : String) (g : GameState) :
    ((tryResolveFreeze pid g).1 = .pending →
      (tryResolveFreeze pid g).2.phase = GamePhase.AWAITING_FREEZE_TARGET) ∧
    ((tryResolveFreeze pid g).1 ≠ .pending → (tryResolveFreeze pid g).2.phase = g.phase) := by
  rw [tryResolveFreeze]
  split
  · exact ⟨fun h => (nomatch h), fun _ => rfl⟩
  · split
    · split
      · exact ⟨fun h => (nomatch h), fun _ => rfl⟩
      · exact ⟨fun h => (nomatch h), fun _ => rfl⟩
    · exact ⟨fun h => (nomatch h), fun _ => rfl⟩
  · exact ⟨fun _ => rfl, fun h => absurd rfl h⟩

theorem flipThreeDealLoop_pendingSecondChance (k : Nat) :
    ∀ (i : Nat) (fd : Bool) (g : GameState),
      (flipThreeDealLoop k i fd g).2.pendingSecondChance = g.pendingSecondChance ∧
      (flipThreeDealLoop k i fd g).2.phase = g.phase := by
  induction k with
  | zero => intro i fd g; exact ⟨rfl, rfl⟩
  | succ k ih =>
    intro i fd g
    rw [flipThreeDealLoop]
    split
    · exact ⟨rfl, rfl⟩
    · rename_i p hp
      split
      · exact ⟨rfl, rfl⟩
      · split
        · exact ⟨rfl, rfl⟩
        · rename_i card deckRest hdeck
          dsimp only
          rcases hr : processDrawnCard p card with ⟨r, p2⟩
          dsimp only
          split
          · exact ⟨rfl, rfl⟩
          · split
            · constructor
              · refine (ih i _ _).1.trans ?_
                split
                · split
                  · rfl
                  · rfl
                · rfl
              · refine (ih i _ _).2.trans ?_
                split
                · split
                  · rfl
                  · rfl
                · rfl
            · split
              · exact ⟨(ih i _ _).1.trans rfl, (ih i _ _).2.trans rfl⟩
              · constructor
                · refine (ih i _ _).1.trans ?_
                  split
                  · rw [giveSecondChanceToOtherPlayer_pendingSecondChance] <;> rfl
                  · rfl
                · refine (ih i _ _).2.trans ?_
                  split
                  · rw [giveSecondChanceToOtherPlayer_phase] <;> rfl
                  · rfl

theorem executeFlipThreeDuringDeal_no_second_chance_prompt (i : Nat) (g : GameState) :
    (executeFlipThreeDuringDeal i g).1.pendingSecondChance = g.pendingSecondChance ∧
    ((executeFlipThreeDuringDeal i g).2 = true →
      (executeFlipThreeDuringDeal i g).1.phase = GamePhase.AWAITING_FREEZE_TARGET) ∧
    ((executeFlipThreeDuringDeal i g).2 = false →
      (executeFlipThreeDuringDeal i g).1.phase = g.phase) := by
  rw [executeFlipThreeDuringDeal]
  rcases hl : flipThreeDealLoop 3 i false g with ⟨fd, g2⟩
  have h2 := flipThreeDealLoop_pendingSecondChance 3 i false g
  rw [hl] at h2
  dsimp only
  split
  · split
    · exact ⟨h2.1, fun h => (nomatch h), fun _ => h2.2⟩
    · rename_i p hp
      split
      · exact ⟨h2.1, fun h => (nomatch h), fun _ => h2.2⟩
      · split
        · rcases ht : tryResolveFreeze p.id g2 with ⟨outcome, g3⟩
          have h3 := tryResolveFreeze_pendingSecondChance p.id g2
          have h3p := tryResolveFreeze_phase p.id g2
          rw [ht] at h3 h3p
          dsimp only
          split
          · rename_i hpend
            exact ⟨h3.trans h2.1, fun _ => h3p.1 hpend, fun h => (nomatch h)⟩
          · rename_i hpend
            exact ⟨h3.trans h2.1, fun h => (nomatch h),
              fun _ => (h3p.2 hpend).trans h2.2⟩
        · exact ⟨h2.1, fun h => (nomatch h), fun _ => h2.2⟩
  · exact ⟨h2.1, fun h => (nomatch h), fun _ => h2.2⟩

theorem dealInitialCardLoop_no_second_chance_prompt (fuel : Nat) :
    ∀ (i : Nat) (g : GameState),
      (dealInitialCardLoop fuel i g).1.pendingSecondChance = g.pendingSecondChance ∧
      ((dealInitialCardLoop fuel i g).2 = true →
        (dealInitialCardLoop fuel i g).1.phase = GamePhase.AWAITING_FREEZE_TARGET) ∧
      ((dealInitialCardLoop fuel i g).2 = false →
        (dealInitialCardLoop fuel i g).1.phase = g.phase) := by
  induction fuel with
  | zero => intro i g; exact ⟨rfl, fun h => (nomatch h), fun _ => rfl⟩
  | succ fuel ih =>
    intro i g
    rw [dealInitialCardLoop]
    split
    · exact ⟨rfl, fun h => (nomatch h), fun _ => rfl⟩
    · rename_i p hp
      split
      · exact ⟨rfl, fun h => (nomatch h), fun _ => rfl⟩
      · split
        · exact ⟨rfl, fun h => (nomatch h), fun _ => rfl⟩
        · rename_i card deckRest hdeck
          dsimp only
          rcases hr : processDrawnCard p card with ⟨r, p2⟩
          dsimp only
          split
          · rcases ht : tryResolveFreeze p2.id (setPlayer { g with deck := deckRest } i p2) with
              ⟨outcome, g3⟩
            have h3 := tryResolveFreeze_pendingSecondChance p2.id
              (setPlayer { g with deck := deckRest } i p2)
            have h3p := tryResolveFreeze_phase p2.id
              (setPlayer { g with deck := deckRest } i p2)
            rw [ht] at h3 h3p
            dsimp only
            split
            · rename_i hpend
              exact ⟨h3.trans rfl, fun _ => h3p.1 hpend, fun h => (nomatch h)⟩
            · rename_i hpend
              exact ⟨h3.trans rfl, fun h => (nomatch h),
                fun _ => (h3p.2 hpend).trans rfl⟩
          · split
            · have he := executeFlipThreeDuringDeal_no_second_chance_prompt i
                (setPlayer { g with deck := deckRest } i p2)
              exact ⟨he.1.trans rfl, fun h => he.2.1 h, fun h => (he.2.2 h).trans rfl⟩
            · split
              · refine ⟨(ih i _).1.trans ?_, ?_, ?_⟩
                · rw [giveSecondChanceToOtherPlayer_pendingSecondChance] <;> rfl
                · intro h
                  exact (ih i _).2.1 h
                · intro h
                  refine ((ih i _).2.2 h).trans ?_
                  rw [giveSecondChanceToOtherPlayer_phase] <;> rfl
              · split
                · exact ⟨(ih i _).1.trans rfl, fun h => (ih i _).2.1 h,
                    fun h => ((ih i _).2.2 h).trans rfl⟩
                · exact ⟨rfl, fun h => (nomatch h), fun _ => rfl⟩

theorem continueInitialDealFrom_no_second_chance_prompt (k : Nat) :
    ∀ (startIndex : Nat) (g : GameState),
      (continueInitialDealFrom k startIndex g).pendingSecondChance = g.pendingSecondChance ∧
      ((continueInitialDealFrom k startIndex g).phase = GamePhase.PLAYER_TURN ∨
        (continueInitialDealFrom k startIndex g).phase = GamePhase.AWAITING_FREEZE_TARGET) := by
  induction k with
  | zero => intro s g; exact ⟨rfl, Or.inl rfl⟩
  | succ k ih =>
    intro s g
    rw [continueInitialDealFrom]
    split
    · exact ⟨rfl, Or.inl rfl⟩
    · split
      · rcases hd : dealInitialCard s g with ⟨g2, paused⟩
        have h2 := dealInitialCardLoop_no_second_chance_prompt (g.deck.length + 1) s g
        rw [show dealInitialCardLoop (g.deck.length + 1) s g = (g2, paused) from hd] at h2
        dsimp only
        split
        · rename_i hpaused
          exact ⟨h2.1, Or.inr (h2.2.1 hpaused)⟩
        · rename_i hpaused
          refine ⟨(ih _ _).1.trans h2.1, (ih _ _).2⟩
      · exact ih _ _

/-- C10: during the initial deal the engine never prompts for a
bust-insurance decision: a whole round start leaves no pending
second-chance record and ends in `PLAYER_TURN` or (paused for a freeze
choice) `AWAITING_FREEZE_TARGET`; a Draw-Three executed during the
deal likewise never enters `AWAITING_SECOND_CHANCE`; and when a
duplicate number is drawn there while the player holds a Second
Chance, the insurance card and the duplicate are discarded
automatically and the three-card loop simply continues. -/
theorem C10_deal_auto_second_chance :
    (∀ g : GameState,
      (startNewRound g).pendingSecondChance = none ∧
      ((startNewRound g).phase = GamePhase.PLAYER_TURN ∨
        (startNewRound g).phase = GamePhase.AWAITING_FREEZE_TARGET))
    ∧ (∀ (i : Nat) (g : GameState), g.phase = GamePhase.DEALING →
        (executeFlipThreeDuringDeal i g).1.pendingSecondChance = g.pendingSecondChance ∧
        ((executeFlipThreeDuringDeal i g).1.phase = GamePhase.DEALING ∨
          (executeFlipThreeDuringDeal i g).1.phase = GamePhase.AWAITING_FREEZE_TARGET))
    ∧ (∀ (k i : Nat) (fd : Bool) (g : GameState) (p : Player) (v kk : Nat)
        (cid : String) (rest : List Card) (scP : PlayedCard),
        g.players[i]? = some p →
        p.status = PlayerStatus.active →
        g.deck = Card.number v cid :: rest →
        (p.cards.any fun pc =>
          match pc.card with
          | .number w _ => decide (w = v)
          | _ => false) = true →
        hasSecondChanceCard p = true →
        getSecondChanceIndex p = some kk →
        p.cards[kk]? = some scP →
        flipThreeDealLoop (k + 1) i fd g =
          flipThreeDealLoop k i fd
            { (setPlayer (setPlayer { g with deck := rest } i p) i
                { p with cards := p.cards.eraseIdx kk }) with
                discardPile := g.discardPile ++ [scP.card, Card.number v cid] }) := by
  refine ⟨?_, ?_, ?_⟩
  · intro g
    have h := continueInitialDealFrom_no_second_chance_prompt
      ((startNewRound g).players.length) 0 g
    -- The subject is definitionally `startNewRound g`; restate through
    -- the definition.
    rw [startNewRound]
    rw [continueInitialDeal]
    exact ⟨(continueInitialDealFrom_no_second_chance_prompt _ 0 _).1.trans rfl,
      (continueInitialDealFrom_no_second_chance_prompt _ 0 _).2⟩
  · intro i g hphase
    have h := executeFlipThreeDuringDeal_no_second_chance_prompt i g
    refine ⟨h.1, ?_⟩
    cases hpause : (executeFlipThreeDuringDeal i g).2 with
    | true => exact Or.inr (h.2.1 hpause)
    | false => exact Or.inl ((h.2.2 hpause).trans hphase)
  · intro k i fd g p v kk cid rest scP hp hstatus hdeck hdup hhsc hsc hscP
    rw [flipThreeDealLoop, hp]
    dsimp only
    rw [if_neg (by simp [statusIs, hstatus])]
    rw [hdeck]
    dsimp only [processDrawnCard, DrawResult.init]
    rw [hdup]
    simp only [Bool.false_and, Bool.and_false, Bool.true_and, Bool.and_true,
      Bool.not_false, Bool.not_true, Bool.false_eq_true, Bool.true_eq_false,
      eq_self_iff_true, if_true, if_false, hhsc, reduceIte]
    rw [hsc]
    dsimp only
    rw [hscP]
    rfl

/-- Witness for C10: one deal-time Draw-Three iteration on a player
holding a Second Chance and a 7 who draws a duplicate 7 auto-discards
the insurance and the duplicate and keeps looping. -/
theorem C10_deal_auto_second_chance_witness :
    flipThreeDealLoop 3 0 false
      (baseState
        [mkPlayer "p1" [⟨Card.action .second_chance "sc", []⟩, ⟨Card.number 7 "n7", []⟩] .active]
        [Card.number 7 "n7d"]) =
    flipThreeDealLoop 2 0 false
      { (setPlayer (setPlayer
          { baseState
              [mkPlayer "p1"
                [⟨Card.action .second_chance "sc", []⟩, ⟨Card.number 7 "n7", []⟩] .active]
              [Card.number 7 "n7d"] with deck := [] } 0
          (mkPlayer "p1" [⟨Card.action .second_chance "sc", []⟩, ⟨Card.number 7 "n7", []⟩] .active)) 0
          { mkPlayer "p1" [⟨Card.action .second_chance "sc", []⟩, ⟨Card.number 7 "n7", []⟩] .active with
              cards := [⟨Card.action .second_chance "sc", []⟩, ⟨Card.number 7 "n7", []⟩].eraseIdx 0 }) with
          discardPile := [] ++ [Card.action .second_chance "sc", Card.number 7 "n7d"] } :=
  C10_deal_auto_second_chance.2.2 2 0 false _
    (mkPlayer "p1" [⟨Card.action .second_chance "sc", []⟩, ⟨Card.number 7 "n7", []⟩] .active)
    7 0 "n7d" [] ⟨Card.action .second_chance "sc", []⟩
    (by decide) (by decide) (by decide) (by decide) (by decide) (by decide) (by decide)

/-! ### C4 — busting and the card-zone invariant -/

/-- `endRound` never changes any player's hand. -/
theorem endRound_players_cards (g : GameState) (j : Nat) :
    ((endRound g).players[j]?).map (fun q => q.cards) =
      (g.players[j]?).map (fun q => q.cards) := by
  rw [endRound_players, List.getElem?_map]
  cases g.players[j]? with
  | none => rfl
  | some p =>
    dsimp only [Option.map]
    split <;> rfl

/-- `advanceToNextPlayer` never changes any player's hand. -/
theorem advanceToNextPlayer_players_cards (g : GameState) (j : Nat) :
    ((advanceToNextPlayer g).players[j]?).map (fun q => q.cards) =
      (g.players[j]?).map (fun q => q.cards) := by
  simp only [advanceToNextPlayer]
  split
  · exact endRound_players_cards g j
  · split
    · rfl
    · exact endRound_players_cards g j

/-- Counterexample to C4 as stated: "p1" holds a 5 and draws the
duplicate 5 with no Second Chance; afterwards both cards are in the
discard pile, yet the original 5 is still in the busted player's hand
as well — the cards are in two zones at once, not "exactly one". -/
theorem C4_counterexample :
    ((hit (fun d => d) "p1"
        (baseState
          [mkPlayer "p1" [⟨Card.number 5 "n5", []⟩] .active,
           mkPlayer "p2" [] .active]
          [Card.number 5 "n5d"])).2.discardPile =
        [Card.number 5 "n5", Card.number 5 "n5d"]) ∧
    (((hit (fun d => d) "p1"
        (baseState
          [mkPlayer "p1" [⟨Card.number 5 "n5", []⟩] .active,
           mkPlayer "p2" [] .active]
          [Card.number 5 "n5d"])).2.players[0]?).map (fun q => (q.cards, q.status)) =
        some ([⟨Card.number 5 "n5", []⟩], PlayerStatus.busted)) := by
  constructor
  · decide
  · decide

/-- C4 (amended): a duplicate Number drawn by a player with no Second
Chance marks them `busted` with round score 0 and appends the whole
hand plus the offending card to the discard pile — but the busted
player's `cards` list is NOT cleared: the hand is retained, so those
cards are simultaneously in the hand and in the discard pile (and the
hand copy is pushed to the discard pile a second time by the next
`startNewRound`). -/
theorem C4_bust_discards_but_keeps_hand (g : GameState) (i : Nat) (p : Player)
    (v : Nat) (cid : String)
    (hp : g.players[i]? = some p)
    (hdup : (p.cards.any fun pc =>
      match pc.card with
      | Card.number w _ => decide (w = v)
      | _ => false) = true)
    (hnosc : hasSecondChanceCard p = false) :
    (handleDrawnCard i (Card.number v cid) g).2 =
      advanceToNextPlayer
        { (setPlayer (setPlayer g i p) i
            { p with status := PlayerStatus.busted, roundScore := 0 }) with
            discardPile :=
              g.discardPile ++ p.cards.map (fun pc => pc.card) ++ [Card.number v cid] } ∧
    ((handleDrawnCard i (Card.number v cid) g).2.players[i]?).map (fun q => q.cards) =
      some p.cards := by
  have h1 : (handleDrawnCard i (Card.number v cid) g).2 =
      advanceToNextPlayer
        { (setPlayer (setPlayer g i p) i
            { p with status := PlayerStatus.busted, roundScore := 0 }) with
            discardPile :=
              g.discardPile ++ p.cards.map (fun pc => pc.card) ++ [Card.number v cid] } := by
    rw [handleDrawnCard, hp]
    dsimp only [processDrawnCard, DrawResult.init]
    rw [hdup]
    simp only [Bool.false_and, Bool.and_false, Bool.true_and, Bool.and_true,
      Bool.not_false, Bool.not_true, Bool.false_eq_true, Bool.true_eq_false,
      eq_self_iff_true, if_true, if_false, hnosc, reduceIte]
    rfl
  refine ⟨h1, ?_⟩
  rw [h1, advanceToNextPlayer_players_cards]
  have hlen : i < g.players.length := by
    rcases List.getElem?_eq_some_iff.mp hp with ⟨h, _⟩
    exact h
  show (((g.players.set i p).set i
      { p with status := PlayerStatus.busted, roundScore := 0 })[i]?).map
        (fun q => q.cards) = some p.cards
  rw [List.getElem?_set_self (by simpa using hlen)]
  rfl

/-- Witness for C4 (amended): the concrete bust of the counterexample
follows the amended description, hand retained. -/
theorem C4_bust_discards_but_keeps_hand_witness :
    (handleDrawnCard 0 (Card.number 5 "n5d")
        (baseState
          [mkPlayer "p1" [⟨Card.number 5 "n5", []⟩] .active,
           mkPlayer "p2" [] .active] [])).2 =
      advanceToNextPlayer
        { (setPlayer (setPlayer
            (baseState
              [mkPlayer "p1" [⟨Card.number 5 "n5", []⟩] .active,
               mkPlayer "p2" [] .active] []) 0
            (mkPlayer "p1" [⟨Card.number 5 "n5", []⟩] .active)) 0
            { mkPlayer "p1" [⟨Card.number 5 "n5", []⟩] .active with
                status := PlayerStatus.busted, roundScore := 0 }) with
            discardPile :=
              (baseState
                [mkPlayer "p1" [⟨Card.number 5 "n5", []⟩] .active,
                 mkPlayer "p2" [] .active] []).discardPile ++
              (mkPlayer "p1" [⟨Card.number 5 "n5", []⟩] .active).cards.map
                (fun pc => pc.card) ++ [Card.number 5 "n5d"] } ∧
    ((handleDrawnCard 0 (Card.number 5 "n5d")
        (baseState
          [mkPlayer "p1" [⟨Card.number 5 "n5", []⟩] .active,
           mkPlayer "p2" [] .active] [])).2.players[0]?).map (fun q => q.cards) =
      some (mkPlayer "p1" [⟨Card.number 5 "n5", []⟩] .active).cards :=
  C4_bust_discards_but_keeps_hand
    (baseState
      [mkPlayer "p1" [⟨Card.number 5 "n5", []⟩] .active,
       mkPlayer "p2" [] .active] [])
    0 (mkPlayer "p1" [⟨Card.number 5 "n5", []⟩] .active) 5 "n5d"
    (by decide) (by decide) (by decide)

/-! ### C6 — the order of the initial deal -/

/-- One `dealInitialCard` on an active player with an empty hand and a
Number card on top of the deck: the card goes to that player's hand,
the loop ends at once (a single Number on an empty hand can neither
bust nor reach seven uniques) and the deal is not paused. -/
theorem dealInitialCard_number (s : Nat) (g : GameState) (p : Player) (v : Nat)
    (cid : String) (rest : List Card)
    (hp : g.players[s]? = some p) (hact : p.status = PlayerStatus.active)
    (hcards : p.cards = [])
    (hdeck : g.deck = Card.number v cid :: rest) :
    dealInitialCard s g =
      (setPlayer { g with deck := rest } s
        { p with cards := [⟨Card.number v cid, []⟩] }, false) := by
  rw [dealInitialCard, dealInitialCardLoop, hp]
  dsimp only
  rw [if_neg (by simp [statusIs, hact])]
  rw [hdeck]
  dsimp only [processDrawnCard, DrawResult.init]
  rw [hcards]
  rfl

/-- Dealing a prefix of Number cards to a block of seats that are all
active with empty hands: the loop of `continueInitialDeal` hands seat
`s + m` the `m`-th card, consumes exactly one card per seat, and falls
through to `finishInitialDeal`. -/
theorem continueInitialDealFrom_numbers (k : Nat) :
    ∀ (s : Nat) (g : GameState) (vs : List (Nat × String)),
      g.players.length = s + k →
      k ≤ vs.length →
      g.deck = vs.map (fun y => Card.number y.1 y.2) →
      (∀ j (pj : Player), s ≤ j → g.players[j]? = some pj →
        pj.status = PlayerStatus.active ∧ pj.cards = []) →
      continueInitialDealFrom k s g =
        finishInitialDeal
          { g with
              deck := (vs.drop k).map (fun y => Card.number y.1 y.2)
              players := dealSeats g.players s (vs.take k) } := by
  induction k with
  | zero =>
    intro s g vs hlen hk hdeck hinv
    rw [continueInitialDealFrom]
    rw [List.drop_zero, List.take_zero, ← hdeck]
    rfl
  | succ k ih =>
    intro s g vs hlen hk hdeck hinv
    have hs : s < g.players.length := by omega
    obtain ⟨p, hp⟩ : ∃ p, g.players[s]? = some p :=
      ⟨g.players[s], List.getElem?_eq_getElem hs⟩
    obtain ⟨hact, hcards⟩ := hinv s p (Nat.le_refl s) hp
    obtain ⟨x, vs', rfl⟩ : ∃ x vs', vs = x :: vs' := by
      cases vs with
      | nil => simp at hk
      | cons x vs' => exact ⟨x, vs', rfl⟩
    rw [continueInitialDealFrom, hp]
    dsimp only
    rw [if_pos (by simp [statusIs, hact])]
    have hstep := dealInitialCard_number s g p x.1 x.2
      (vs'.map (fun y => Card.number y.1 y.2)) hp hact hcards (by simpa using hdeck)
    rw [hstep]
    dsimp only
    rw [if_neg Bool.false_ne_true]
    have h1 : (setPlayer { g with deck := vs'.map (fun y => Card.number y.1 y.2) } s
        { p with cards := [⟨Card.number x.1 x.2, []⟩] }).players.length = (s + 1) + k := by
      rw [show (setPlayer { g with deck := vs'.map (fun y => Card.number y.1 y.2) } s
          { p with cards := [⟨Card.number x.1 x.2, []⟩] }).players =
        g.players.set s { p with cards := [⟨Card.number x.1 x.2, []⟩] } from rfl]
      rw [List.length_set]
      omega
    have h2 : k ≤ vs'.length := by
      simp only [List.length_cons] at hk
      omega
    have h3 : (setPlayer { g with deck := vs'.map (fun y => Card.number y.1 y.2) } s
        { p with cards := [⟨Card.number x.1 x.2, []⟩] }).deck =
        vs'.map (fun y => Card.number y.1 y.2) := rfl
    have h4 : ∀ j (pj : Player), s + 1 ≤ j →
        (setPlayer { g with deck := vs'.map (fun y => Card.number y.1 y.2) } s
          { p with cards := [⟨Card.number x.1 x.2, []⟩] }).players[j]? = some pj →
        pj.status = PlayerStatus.active ∧ pj.cards = [] := by
      intro j pj hj hpj
      rw [show (setPlayer { g with deck := vs'.map (fun y => Card.number y.1 y.2) } s
          { p with cards := [⟨Card.number x.1 x.2, []⟩] }).players =
        g.players.set s { p with cards := [⟨Card.number x.1 x.2, []⟩] } from rfl] at hpj
      rw [List.getElem?_set_ne (by omega)] at hpj
      exact hinv j pj (by omega) hpj
    rw [ih (s + 1) _ vs' h1 h2 h3 h4]
    have hseat : dealSeats g.players s ((x :: vs').take (k + 1)) =
        dealSeats (g.players.set s { p with cards := [⟨Card.number x.1 x.2, []⟩] }) (s + 1)
          (vs'.take k) := by
      rw [List.take_succ_cons, dealSeats, dealSeat, hp]
    rw [hseat]
    rfl

theorem finishInitialDeal_players (g : GameState) :
    (finishInitialDeal g).players = g.players := rfl

theorem dealSeat_length (ps : List Player) (s : Nat) (x : Nat × String) :
    (dealSeat ps s x).length = ps.length := by
  rw [dealSeat]
  split
  · exact List.length_set ..
  · rfl

theorem dealSeats_length (xs : List (Nat × String)) :
    ∀ (ps : List Player) (s : Nat), (dealSeats ps s xs).length = ps.length := by
  induction xs with
  | nil => intro ps s; rfl
  | cons x xs ih =>
    intro ps s
    rw [dealSeats, ih, dealSeat_length]

/-- Seats below the dealing cursor are never touched again. -/
theorem dealSeats_getElem_lt (xs : List (Nat × String)) :
    ∀ (ps : List Player) (s j : Nat), j < s → (dealSeats ps s xs)[j]? = ps[j]? := by
  induction xs with
  | nil => intro ps s j hj; rfl
  | cons x xs ih =>
    intro ps s j hj
    rw [dealSeats, ih _ _ _ (by omega)]
    rw [dealSeat]
    split
    · exact List.getElem?_set_ne (by omega)
    · rfl

/-- The deal changes no player's status or connection flag. -/
theorem dealSeats_status (xs : List (Nat × String)) :
    ∀ (ps : List Player) (s j : Nat),
      ((dealSeats ps s xs)[j]?).map (fun q => (q.status, q.isConnected)) =
        (ps[j]?).map (fun q => (q.status, q.isConnected)) := by
  induction xs with
  | nil => intro ps s j; rfl
  | cons x xs ih =>
    intro ps s j
    rw [dealSeats, ih]
    rw [dealSeat]
    split
    · rename_i p hp
      by_cases hsj : s = j
      · subst hsj
        rcases List.getElem?_eq_some_iff.mp hp with ⟨hlt, -⟩
        rw [List.getElem?_set_self hlt, hp]
        rfl
      · rw [List.getElem?_set_ne hsj]
    · rfl

/-- Seat `s + j` ends the deal holding exactly the `j`-th card. -/
theorem dealSeats_cards (xs : List (Nat × String)) :
    ∀ (ps : List Player) (s j : Nat) (y : Nat × String),
      xs[j]? = some y → s + xs.length ≤ ps.length →
      ((dealSeats ps s xs)[s + j]?).map (fun q => q.cards) =
        some [⟨Card.number y.1 y.2, []⟩] := by
  induction xs with
  | nil => intro ps s j y hy hfit; exact (nomatch hy)
  | cons x xs ih =>
    intro ps s j y hy hfit
    simp only [List.length_cons] at hfit
    cases j with
    | zero =>
      rw [List.getElem?_cons_zero] at hy
      obtain rfl : x = y := Option.some.inj hy
      have hs : s < ps.length := by omega
      obtain ⟨p, hp⟩ : ∃ p, ps[s]? = some p := ⟨ps[s], List.getElem?_eq_getElem hs⟩
      simp only [Nat.add_zero]
      rw [dealSeats, dealSeats_getElem_lt _ _ _ _ (by omega)]
      rw [dealSeat, hp]
      dsimp only
      rw [List.getElem?_set_self hs]
      rfl
    | succ j =>
      have hy' : xs[j]? = some y := by rw [List.getElem?_cons_succ] at hy; exact hy
      have hfit' : (s + 1) + xs.length ≤ (dealSeat ps s x).length := by
        rw [dealSeat_length]
        omega
      have h := ih (dealSeat ps s x) (s + 1) j y hy' hfit'
      rw [dealSeats]
      rw [show s + (j + 1) = (s + 1) + j from by omega]
      exact h

/-- The cyclic scan of `skipInactivePlayers` stops immediately on an
active connected player. -/
theorem skipLoop_found (players : List Player) (idx att : Nat) (p : Player)
    (hp : players[idx]? = some p)
    (hact : (statusIs .active p && p.isConnected) = true) :
    skipLoop players idx (att + 1) = idx := by
  rw [skipLoop, hp]
  dsimp only
  rw [if_pos hact]

/-- The whole initial deal on a state whose players are all active,
connected and empty-handed and whose deck starts with Number cards:
seat `j` (counting from 0) receives the `j`-th card of the deck, the
current turn becomes the seat right after the dealer, and the phase
becomes `PLAYER_TURN`. -/
theorem continueInitialDeal_numbers_spec (gD : GameState) (vs : List (Nat × String))
    (n d : Nat) (hn : gD.players.length = n) (hd : gD.dealerIndex = d)
    (hdeck : gD.deck = vs.map (fun y => Card.number y.1 y.2))
    (hlen : n ≤ vs.length) (hpos : 0 < n)
    (hinv : ∀ (j : Nat) (pj : Player), gD.players[j]? = some pj →
      pj.status = PlayerStatus.active ∧ pj.cards = [] ∧ pj.isConnected = true) :
    (∀ (j : Nat) (y : Nat × String), j < n → vs[j]? = some y →
      ((continueInitialDeal 0 gD).players[j]?).map (fun q => q.cards) =
        some [⟨Card.number y.1 y.2, []⟩]) ∧
    (continueInitialDeal 0 gD).currentPlayerIndex = (d + 1) % n ∧
    (continueInitialDeal 0 gD).phase = GamePhase.PLAYER_TURN := by
  subst hn hd
  rw [continueInitialDeal, Nat.sub_zero]
  have hinv' : ∀ j (pj : Player), 0 ≤ j → gD.players[j]? = some pj →
      pj.status = PlayerStatus.active ∧ pj.cards = [] :=
    fun j pj _ hpj => ⟨(hinv j pj hpj).1, (hinv j pj hpj).2.1⟩
  rw [continueInitialDealFrom_numbers gD.players.length 0 gD vs (by omega) hlen hdeck hinv']
  refine ⟨?_, ?_, rfl⟩
  · intro j y hj hy
    rw [finishInitialDeal_players]
    have htake : (vs.take gD.players.length)[j]? = some y := by
      rw [List.getElem?_take_of_lt hj]
      exact hy
    have hfit : 0 + (vs.take gD.players.length).length ≤ gD.players.length := by
      simp only [Nat.zero_add, List.length_take]
      omega
    have h := dealSeats_cards (vs.take gD.players.length) gD.players 0 j y htake hfit
    rw [Nat.zero_add] at h
    exact h
  · obtain ⟨m, hm⟩ : ∃ m, gD.players.length = m + 1 := ⟨gD.players.length - 1, by omega⟩
    have hBlen : (dealSeats gD.players 0 (vs.take gD.players.length)).length =
        gD.players.length := dealSeats_length _ _ _
    show skipLoop (dealSeats gD.players 0 (vs.take gD.players.length))
        ((gD.dealerIndex + 1) % (dealSeats gD.players 0 (vs.take gD.players.length)).length)
        (dealSeats gD.players 0 (vs.take gD.players.length)).length =
      (gD.dealerIndex + 1) % gD.players.length
    rw [hBlen]
    have hidx : (gD.dealerIndex + 1) % gD.players.length < gD.players.length :=
      Nat.mod_lt _ (by omega)
    obtain ⟨q, hq⟩ : ∃ q, gD.players[(gD.dealerIndex + 1) % gD.players.length]? = some q :=
      ⟨gD.players[(gD.dealerIndex + 1) % gD.players.length], List.getElem?_eq_getElem hidx⟩
    obtain ⟨hqa, -, hqc⟩ := hinv _ q hq
    have hmap := dealSeats_status (vs.take gD.players.length) gD.players 0
      ((gD.dealerIndex + 1) % gD.players.length)
    rw [hq] at hmap
    cases hr : (dealSeats gD.players 0
        (vs.take gD.players.length))[(gD.dealerIndex + 1) % gD.players.length]? with
    | none => rw [hr] at hmap; exact (nomatch hmap)
    | some r =>
      rw [hr] at hmap
      have hmap' := Option.some.inj hmap
      have h1 : r.status = q.status := congrArg Prod.fst hmap'
      have h2 : r.isConnected = q.isConnected := congrArg Prod.snd hmap'
      rw [show gD.players.length = m + 1 from hm] at hr ⊢
      rw [skipLoop_found _ _ m r hr (by simp [statusIs, h1, h2, hqa, hqc])]

/-- Counterexample to C6 as stated: three connected players, dealer at
seat 1, deck topped by 5, 6, 7.  If the deal visited players "in seat
order starting from the dealer", the dealer (seat 1) would receive the
first card (the 5).  Instead seat 0 receives the 5 and the dealer
receives the second card: `continueInitialDeal(0)` always starts at
seat index 0, ignoring `dealerIndex`.  (The turn part of the claim
does hold: the first turn goes to seat 2, right after the dealer.) -/
theorem C6_counterexample :
    ((startNewRound
        { baseState
            [mkPlayer "p1" [] .active, mkPlayer "p2" [] .active, mkPlayer "p3" [] .active]
            [Card.number 5 "a", Card.number 6 "b", Card.number 7 "c"] with
          dealerIndex := 1 }).players.map (fun q => q.cards)) =
      [[⟨Card.number 5 "a", []⟩], [⟨Card.number 6 "b", []⟩], [⟨Card.number 7 "c", []⟩]] ∧
    (startNewRound
        { baseState
            [mkPlayer "p1" [] .active, mkPlayer "p2" [] .active, mkPlayer "p3" [] .active]
            [Card.number 5 "a", Card.number 6 "b", Card.number 7 "c"] with
          dealerIndex := 1 }).currentPlayerIndex = 2 := by
  constructor
  · decide
  · decide

/-- C6 (amended): when a round starts with every player connected (so
everyone is reset to `active` with an empty hand) and the deck holds
enough Number cards, the initial deal visits players in seat-index
order starting from seat 0 — seat `j` receives the `j`-th card of the
deck, regardless of `dealerIndex` — and once every player has their
starting card the current turn is set to the first active player after
the dealer (here the seat right after the dealer, everyone being
active) and the phase becomes `PLAYER_TURN`. -/
theorem C6_deal_from_seat_zero (g : GameState) (vs : List (Nat × String))
    (hdeck : g.deck = vs.map (fun y => Card.number y.1 y.2))
    (hlen : g.players.length ≤ vs.length)
    (hpos : 0 < g.players.length)
    (hconn : ∀ pj ∈ g.players, pj.isConnected = true) :
    (∀ (j : Nat) (y : Nat × String), j < g.players.length → vs[j]? = some y →
      ((startNewRound g).players[j]?).map (fun q => q.cards) =
        some [⟨Card.number y.1 y.2, []⟩]) ∧
    (startNewRound g).currentPlayerIndex = (g.dealerIndex + 1) % g.players.length ∧
    (startNewRound g).phase = GamePhase.PLAYER_TURN := by
  rw [startNewRound]
  refine continueInitialDeal_numbers_spec _ vs g.players.length g.dealerIndex
    (by simp) rfl hdeck hlen hpos ?_
  intro j pj hpj
  have hpj' : (g.players.map (fun (p : Player) =>
      { p with
          cards := ([] : List PlayedCard)
          roundScore := 0
          status := if p.isConnected then PlayerStatus.active
                    else PlayerStatus.disconnected }))[j]? = some pj := hpj
  rw [List.getElem?_map] at hpj'
  cases hq : g.players[j]? with
  | none => rw [hq] at hpj'; exact (nomatch hpj')
  | some q =>
    rw [hq] at hpj'
    obtain rfl : _ = pj := Option.some.inj hpj'
    have hqc := hconn q (List.getElem?_mem hq)
    refine ⟨?_, rfl, hqc⟩
    show (if q.isConnected then PlayerStatus.active else PlayerStatus.disconnected)
        = PlayerStatus.active
    rw [hqc]
    rfl

/-- Witness for C6 (amended): in the counterexample's game the seat-0
player receives the first deck card even though the dealer sits at
seat 1, and the first turn goes to seat 2. -/
theorem C6_deal_from_seat_zero_witness :
    ((startNewRound
        { baseState
            [mkPlayer "p1" [] .active, mkPlayer "p2" [] .active, mkPlayer "p3" [] .active]
            [Card.number 5 "a", Card.number 6 "b", Card.number 7 "c"] with
          dealerIndex := 1 }).players[0]?).map (fun q => q.cards) =
      some [⟨Card.number 5 "a", []⟩] ∧
    (startNewRound
        { baseState
            [mkPlayer "p1" [] .active, mkPlayer "p2" [] .active, mkPlayer "p3" [] .active]
            [Card.number 5 "a", Card.number 6 "b", Card.number 7 "c"] with
          dealerIndex := 1 }).currentPlayerIndex = 2 ∧
    (startNewRound
        { baseState
            [mkPlayer "p1" [] .active, mkPlayer "p2" [] .active, mkPlayer "p3" [] .active]
            [Card.number 5 "a", Card.number 6 "b", Card.number 7 "c"] with
          dealerIndex := 1 }).phase = GamePhase.PLAYER_TURN :=
  ⟨(C6_deal_from_seat_zero
      { baseState
          [mkPlayer "p1" [] .active, mkPlayer "p2" [] .active, mkPlayer "p3" [] .active]
          [Card.number 5 "a", Card.number 6 "b", Card.number 7 "c"] with
        dealerIndex := 1 }
      [(5, "a"), (6, "b"), (7, "c")]
      rfl (by decide) (by decide) (by decide)).1 0 (5, "a") (by decide) rfl,
   (C6_deal_from_seat_zero
      { baseState
          [mkPlayer "p1" [] .active, mkPlayer "p2" [] .active, mkPlayer "p3" [] .active]
          [Card.number 5 "a", Card.number 6 "b", Card.number 7 "c"] with
        dealerIndex := 1 }
      [(5, "a"), (6, "b"), (7, "c")]
      rfl (by decide) (by decide) (by decide)).2.1,
   (C6_deal_from_seat_zero
      { baseState
          [mkPlayer "p1" [] .active, mkPlayer "p2" [] .active, mkPlayer "p3" [] .active]
          [Card.number 5 "a", Card.number 6 "b", Card.number 7 "c"] with
        dealerIndex := 1 }
      [(5, "a"), (6, "b"), (7, "c")]
      rfl (by decide) (by decide) (by decide)).2.2⟩

/-! ### C8 — rejected intents leave the state unchanged -/

/-- C8: every rejected intent returns `none`/`false` and the very same
state, unchanged: a draw (`hit`) or stop (`pass`) in the wrong phase,
out of turn, by an unknown id or by a non-active player; a
second-chance decision with no pending record, in the wrong phase or
by the wrong player; and a freeze or flip-three target choice in the
wrong phase, with no pending record, by the wrong chooser, with an
ineligible target or with an inactive target.  (All operations are
total functions of the state — no rejection path throws.) -/
theorem C8_rejected_intents (g : GameState) (sh : List Card → List Card)
    (pid tid : String) :
    (∀ (i : Nat) (p : Player), getPlayerIdx? g pid = some i → g.players[i]? = some p →
      statusIs .active p = true →
      (g.phase ≠ GamePhase.PLAYER_TURN ∨
        (getCurrentPlayer? g).map (fun q => q.id) ≠ some pid) →
      hit sh pid g = (none, g)) ∧
    (∀ (i : Nat) (p : Player), getPlayerIdx? g pid = some i → g.players[i]? = some p →
      statusIs .active p = false → hit sh pid g = (none, g)) ∧
    (getPlayerIdx? g pid = none → hit sh pid g = (none, g)) ∧
    (∀ (i : Nat) (p : Player), getPlayerIdx? g pid = some i → g.players[i]? = some p →
      statusIs .active p = true →
      (g.phase ≠ GamePhase.PLAYER_TURN ∨
        (getCurrentPlayer? g).map (fun q => q.id) ≠ some pid) →
      pass pid g = (false, g)) ∧
    (∀ (i : Nat) (p : Player), getPlayerIdx? g pid = some i → g.players[i]? = some p →
      statusIs .active p = false → pass pid g = (false, g)) ∧
    (getPlayerIdx? g pid = none → pass pid g = (false, g)) ∧
    (g.phase ≠ GamePhase.AWAITING_SECOND_CHANCE →
      ∀ u, useSecondChance pid u g = (false, g)) ∧
    (g.pendingSecondChance = none → ∀ u, useSecondChance pid u g = (false, g)) ∧
    (∀ pend, g.pendingSecondChance = some pend → pend.playerId ≠ pid →
      ∀ u, useSecondChance pid u g = (false, g)) ∧
    (g.phase ≠ GamePhase.AWAITING_FREEZE_TARGET →
      selectFreezeTarget pid tid g = (false, g)) ∧
    (g.pendingFreezeTarget = none → selectFreezeTarget pid tid g = (false, g)) ∧
    (∀ pend, g.pendingFreezeTarget = some pend → pend.playerId ≠ pid →
      selectFreezeTarget pid tid g = (false, g)) ∧
    (∀ pend, g.pendingFreezeTarget = some pend → pend.playerId = pid →
      tid ∉ pend.eligibleTargets → selectFreezeTarget pid tid g = (false, g)) ∧
    (∀ (pend : PendingTarget) (ti : Nat) (t : Player),
      g.pendingFreezeTarget = some pend → pend.playerId = pid →
      tid ∈ pend.eligibleTargets → getPlayerIdx? g tid = some ti →
      g.players[ti]? = some t → statusIs .active t = false →
      selectFreezeTarget pid tid g = (false, g)) ∧
    (g.phase ≠ GamePhase.AWAITING_FLIP_THREE_TARGET →
      selectFlipThreeTarget pid tid g = (false, g)) ∧
    (g.pendingFlipThreeTarget = none → selectFlipThreeTarget pid tid g = (false, g)) ∧
    (∀ pend, g.pendingFlipThreeTarget = some pend → pend.playerId ≠ pid →
      selectFlipThreeTarget pid tid g = (false, g)) ∧
    (∀ pend, g.pendingFlipThreeTarget = some pend → pend.playerId = pid →
      tid ∉ pend.eligibleTargets → selectFlipThreeTarget pid tid g = (false, g)) ∧
    (∀ (pend : PendingTarget) (ti : Nat) (t : Player),
      g.pendingFlipThreeTarget = some pend → pend.playerId = pid →
      tid ∈ pend.eligibleTargets → getPlayerIdx? g tid = some ti →
      g.players[ti]? = some t → statusIs .active t = false →
      selectFlipThreeTarget pid tid g = (false, g)) := by
  refine ⟨?_, ?_, ?_, ?_, ?_, ?_, ?_, ?_, ?_, ?_, ?_, ?_, ?_, ?_, ?_, ?_, ?_, ?_, ?_⟩
  · intro i p hi hp hact hbad
    rw [hit, hi]
    dsimp only
    rw [hp]
    dsimp only
    rw [if_neg (not_not_intro hact), if_pos hbad]
  · intro i p hi hp hact
    rw [hit, hi]
    dsimp only
    rw [hp]
    dsimp only
    rw [if_pos (by simp [hact])]
  · intro hi
    rw [hit, hi]
  · intro i p hi hp hact hbad
    rw [pass, hi]
    dsimp only
    rw [hp]
    dsimp only
    rw [if_neg (not_not_intro hact), if_pos hbad]
  · intro i p hi hp hact
    rw [pass, hi]
    dsimp only
    rw [hp]
    dsimp only
    rw [if_pos (by simp [hact])]
  · intro hi
    rw [pass, hi]
  · intro h u
    rw [useSecondChance, if_pos h]
  · intro h u
    rw [useSecondChance]
    split
    · rfl
    · rw [h]
  · intro pend hpend hne u
    rw [useSecondChance]
    split
    · rfl
    · rw [hpend]
      dsimp only
      rw [if_pos hne]
  · intro h
    rw [selectFreezeTarget, if_pos h]
  · intro h
    rw [selectFreezeTarget]
    split
    · rfl
    · rw [h]
  · intro pend hpend hne
    rw [selectFreezeTarget]
    split
    · rfl
    · rw [hpend]
      dsimp only
      rw [if_pos hne]
  · intro pend hpend heq hnotin
    rw [selectFreezeTarget]
    split
    · rfl
    · rw [hpend]
      dsimp only
      rw [if_neg (not_not_intro heq), if_pos hnotin]
  · intro pend ti t hpend heq hmem hti ht hstat
    rw [selectFreezeTarget]
    split
    · rfl
    · rw [hpend]
      dsimp only
      rw [if_neg (not_not_intro heq), if_neg (not_not_intro hmem), hti]
      dsimp only
      rw [ht]
      dsimp only
      rw [if_pos (by simp [hstat])]
  · intro h
    rw [selectFlipThreeTarget, if_pos h]
  · intro h
    rw [selectFlipThreeTarget]
    split
    · rfl
    · rw [h]
  · intro pend hpend hne
    rw [selectFlipThreeTarget]
    split
    · rfl
    · rw [hpend]
      dsimp only
      rw [if_pos hne]
  · intro pend hpend heq hnotin
    rw [selectFlipThreeTarget]
    split
    · rfl
    · rw [hpend]
      dsimp only
      rw [if_neg (not_not_intro heq), if_pos hnotin]
  · intro pend ti t hpend heq hmem hti ht hstat
    rw [selectFlipThreeTarget]
    split
    · rfl
    · rw [hpend]
      dsimp only
      rw [if_neg (not_not_intro heq), if_neg (not_not_intro hmem), hti]
      dsimp only
      rw [ht]
      dsimp only
      rw [if_pos (by simp [hstat])]

/-- Witness for C8: an active player trying to draw while the game sits
in `ROUND_END` is rejected with `none` and an unchanged state. -/
theorem C8_rejected_intents_witness :
    hit (fun d => d) "p1"
        { baseState [mkPlayer "p1" [] .active] [] with phase := .ROUND_END } =
      (none, { baseState [mkPlayer "p1" [] .active] [] with phase := .ROUND_END }) :=
  (C8_rejected_intents
      { baseState [mkPlayer "p1" [] .active] [] with phase := .ROUND_END }
      (fun d => d) "p1" "p1").1 0 (mkPlayer "p1" [] .active)
    (by decide) (by decide) (by decide) (Or.inl (by decide))

end Flip7